import Mathlib

/-!
# utempter: a privileged helper for utmp/wtmp updates

A shallow embedding of `libutempter/utempter.c` and theorems about it.

Conventions of the embedding.

* A C string is the list of its bytes before the terminating NUL, each byte an
  `unsigned char` value (`CStr`).  A `NULL` pointer is `none`.
* Everything the program asks the operating system is a field of `Env`; the
  constants and field widths that come from the system headers (`<fcntl.h>`,
  `<utmp.h>`) are fields of `Env` as well, so the theorems hold for every value
  of them.
* `exit` is the constructor `Step.exit`: a function either terminates the
  process with a status or returns a value, and in both cases hands back the
  `World`, the effects performed so far (system calls made, diagnostics written
  to standard error, records stored in the session database and appended to the
  historical log).
* Lengths are natural numbers; the one subtraction of `size_t` values the
  program makes, for `ut_id`, is `size_sub`, which wraps around as unsigned
  arithmetic does.
* The record writer follows the `#else /* !__FreeBSD__ */` branch of
  `write_uwtmp_record`, the configuration whose record has `ut_id`, `ut_type`
  and `ut_pid`.  `UTEMPTER_DEBUG` is a field of `Env`.
-/

namespace Utempter

/-! ## Data model -/

/-- C string: the bytes before the terminating NUL, as unsigned char values. -/
abbrev CStr := List Nat

/-- Modelled from the spec: the macro `EXIT_SUCCESS` of `<stdlib.h>`, a system
header; the spec's table of exit statuses has 0 for success. -/
def EXIT_SUCCESS : Nat := 0

/-- Modelled from the spec: the macro `EXIT_FAILURE` of `<stdlib.h>`, a system
header; the spec's table of exit statuses has 1 for failure. -/
def EXIT_FAILURE : Nat := 1

/-- The macro `STDIN_FILENO` of `<unistd.h>`: descriptor 0, the first of the
three the loop of `main` goes through. -/
def STDIN_FILENO : Nat := 0

/-- The literal "/dev/". -/
def DEV_PREFIX : CStr := [47, 100, 101, 118, 47]

/-- The macro `DEV_PREFIX_LEN`, that is `sizeof(DEV_PREFIX) - 1`. -/
def DEV_PREFIX_LEN : Nat := (DEV_PREFIX.length + 1) - 1

/-- The literal "add". -/
def ADD : CStr := [97, 100, 100]

/-- The literal "del". -/
def DEL : CStr := [100, 101, 108]

/-- The macro `MIN(a_, b_)`. -/
def MIN (a b : Nat) : Nat := if a < b then a else b

/-- The part of `struct passwd` the program reads: `pw_name`, a pointer. -/
structure passwd where
  pw_name : Option CStr
  deriving DecidableEq, Repr

/-- The part of `struct stat` the program reads. -/
structure stat where
  st_uid : Nat
  deriving DecidableEq, Repr

/-- The fields of `struct timeval`. -/
structure timeval where
  tv_sec : Int
  tv_usec : Int
  deriving DecidableEq, Repr

/-- The values of `ut_type` the program deals with; `EMPTY` is the zero value. -/
inductive UtType where
  | EMPTY
  | USER_PROCESS
  | DEAD_PROCESS
  deriving DecidableEq, Repr

/-- The fields of `struct utmp` the program writes; the character arrays are
lists of exactly the field width.  The fields it never writes stay zero and
are left out. -/
structure utmp where
  ut_type : UtType
  ut_pid : Nat
  ut_line : List Nat
  ut_id : List Nat
  ut_name : List Nat
  ut_host : List Nat
  ut_tv_sec : Int
  ut_tv_usec : Int
  deriving DecidableEq, Repr

/-- What one invocation finds around it: build configuration, header constants,
arguments, and the answers of the operating system. -/
structure Env where
  /-- whether the program was built with `UTEMPTER_DEBUG` -/
  UTEMPTER_DEBUG : Bool
  /-- the flag `O_RDWR` of `<fcntl.h>` -/
  O_RDWR : Nat
  /-- `sizeof(ut.ut_name)` -/
  UT_NAMESIZE : Nat
  /-- `sizeof(ut.ut_line)` -/
  UT_LINESIZE : Nat
  /-- `sizeof(ut.ut_host)` -/
  UT_HOSTSIZE : Nat
  /-- `sizeof(ut.ut_id)` -/
  UT_IDSIZE : Nat
  /-- width in bits of the signed type of `ut.ut_tv.tv_sec` -/
  TV_SEC_BITS : Nat
  /-- width in bits of the signed type of `ut.ut_tv.tv_usec` -/
  TV_USEC_BITS : Nat
  /-- width in bits of `size_t`, an unsigned type -/
  SIZE_BITS : Nat
  /-- the argument vector; `argc` is its length and `argv[argc]` is `NULL` -/
  argv : List CStr
  /-- the return value of `fstat(fd, &sb)` -/
  fstat : Nat → Int
  /-- the return value of `getppid()` -/
  getppid : Nat
  /-- the return value of `getuid()` -/
  getuid : Nat
  /-- the return value of `getpwuid(uid)` -/
  getpwuid : Nat → Option passwd
  /-- the return value of `ptsname(fd)` -/
  ptsname : Nat → Option CStr
  /-- the return value of `fcntl(fd, F_GETFL, 0)` -/
  fcntl_getfl : Nat → Int
  /-- the buffer filled by `stat(path, &stb)`, `none` when it returns `< 0` -/
  stat : CStr → Option stat
  /-- the time stored by `gettimeofday`, `none` when it stores nothing -/
  gettimeofday : Option timeval
  /-- whether `pututline(&ut)` returns a non-null pointer -/
  pututline : utmp → Bool
  /-- whether the append made by `updwtmp` reaches the historical log
  (`updwtmp` returns nothing) -/
  updwtmp : utmp → Bool

/-- The system and library calls of the program. -/
inductive Call where
  | fstat (fd : Nat)
  | getppid
  | getuid
  | getpwuid (uid : Nat)
  | ptsname (fd : Nat)
  | fcntl (fd : Nat)
  | stat (path : CStr)
  | gettimeofday
  | setutent
  | pututline (ut : utmp)
  | endutent
  | updwtmp (ut : utmp)
  deriving DecidableEq, Repr

/-- The messages printed to standard error under `UTEMPTER_DEBUG`. -/
inductive Diag where
  | usage
  | invalid_device
  | fcntl
  | invalid_mode
  | stat (device : CStr)
  | another_user (device : CStr)
  | invalid_host
  | pututline
  | parent_init
  | no_user (uid : Nat)
  | no_pty
  | record (add : Nat) (term : CStr)
  deriving DecidableEq, Repr

/-- The effects of the invocation so far. -/
structure World where
  /-- calls made, oldest first -/
  calls : List Call
  /-- messages written to standard error, oldest first -/
  stderr : List Diag
  /-- records stored in the session database by `pututline` -/
  utmp_file : List utmp
  /-- records appended to the historical log by `updwtmp` -/
  wtmp_file : List utmp
  deriving DecidableEq, Repr

/-- Nothing has happened yet. -/
def World.init : World := ⟨[], [], [], []⟩

/-- Record a call. -/
def World.call (w : World) (c : Call) : World :=
  { w with calls := w.calls ++ [c] }

/-- An `fprintf(stderr, ...)` inside `#ifdef UTEMPTER_DEBUG`. -/
def World.say (w : World) (e : Env) (d : Diag) : World :=
  if e.UTEMPTER_DEBUG then { w with stderr := w.stderr ++ [d] } else w

/-- Result of running a C function: it called `exit(status)`, or it returned. -/
inductive Step (α : Type) where
  | exit (status : Nat) (w : World)
  | next (a : α) (w : World)

/-- What is left of a finished process. -/
structure Outcome where
  status : Nat
  world : World
  deriving DecidableEq, Repr

/-! ## Library functions -/

/-- The C library function `strlen`. -/
def strlen (s : CStr) : Nat := s.length

/-- The C library function `strcmp`: the difference at the first differing
byte, the terminating NUL included. -/
def strcmp : CStr → CStr → Int
  | [], [] => 0
  | [], b :: _ => 0 - (b : Int)
  | a :: _, [] => (a : Int)
  | a :: s, b :: t => if a = b then strcmp s t else (a : Int) - (b : Int)

/-- The C library function `strncmp`: as `strcmp`, over at most `n` bytes. -/
def strncmp : CStr → CStr → Nat → Int
  | _, _, 0 => 0
  | [], [], _ + 1 => 0
  | [], b :: _, _ + 1 => 0 - (b : Int)
  | a :: _, [], _ + 1 => (a : Int)
  | a :: s, b :: t, n + 1 => if a = b then strncmp s t n else (a : Int) - (b : Int)

/-- The C library function `isgraph` in the "C" locale (the program never
calls `setlocale`): the printable characters other than the space, which are
the bytes 0x21 to 0x7e. -/
def isgraph (c : Nat) : Bool := decide (33 ≤ c) && decide (c ≤ 126)

/-- The C library function `memcpy(dst, src, n)` on a character array `dst`:
the first `n` bytes of `dst` become the first `n` bytes of `src`. -/
def memcpy (dst : List Nat) (src : CStr) (n : Nat) : List Nat :=
  src.take n ++ dst.drop n

/-- The subtraction `a - b` of two `size_t` values, `size_t` having `bits`
bits: unsigned arithmetic, which wraps around when `b` is the larger. -/
def size_sub (bits a b : Nat) : Nat :=
  (a + 2 ^ bits - b % 2 ^ bits) % 2 ^ bits

/-- A conversion to a signed integer type of `bits` bits. -/
def cast_signed (bits : Nat) (x : Int) : Int :=
  (x + 2 ^ (bits - 1)) % 2 ^ bits - 2 ^ (bits - 1)

/-! ## The program -/

/-- The function `usage`. -/
def usage {α : Type} (e : Env) (w : World) : Step α :=
  .exit EXIT_FAILURE (w.say e .usage)

/-- The function `validate_device`. -/
def validate_device (e : Env) (device : CStr) (w : World) : Step Unit :=
  if strncmp device DEV_PREFIX DEV_PREFIX_LEN ≠ 0 then
    .exit EXIT_FAILURE (w.say e .invalid_device)
  else
    let w := w.call (.fcntl STDIN_FILENO)
    let flags := e.fcntl_getfl STDIN_FILENO
    if flags < 0 then
      .exit EXIT_FAILURE (w.say e .fcntl)
    else if flags.toNat &&& e.O_RDWR ≠ e.O_RDWR then
      .exit EXIT_FAILURE (w.say e .invalid_mode)
    else
      let w := w.call (.stat device)
      match e.stat device with
      | none => .exit EXIT_FAILURE (w.say e (.stat device))
      | some stb =>
        let w := w.call .getuid
        if e.getuid ≠ stb.st_uid then
          .exit EXIT_FAILURE (w.say e (.another_user device))
        else
          .next () w

/-- The function `validate_hostname`.  The list ends where the string has its
NUL, and `(unsigned char) host[0]` is the byte itself. -/
def validate_hostname (e : Env) : CStr → World → Step Unit
  | [], w => .next () w
  | c :: host, w =>
    if !isgraph c then
      .exit EXIT_FAILURE (w.say e .invalid_host)
    else
      validate_hostname e host w

/-- The record after `memset(&ut, 0, sizeof(ut))`. -/
def utmp.zero (e : Env) : utmp :=
  { ut_type := .EMPTY
    ut_pid := 0
    ut_line := List.replicate e.UT_LINESIZE 0
    ut_id := List.replicate e.UT_IDSIZE 0
    ut_name := List.replicate e.UT_NAMESIZE 0
    ut_host := List.replicate e.UT_HOSTSIZE 0
    ut_tv_sec := 0
    ut_tv_usec := 0 }

/-- The local variable `offset` of `write_uwtmp_record` (lines 157 and 158),
for a terminal name of length `len`. -/
def id_offset (e : Env) (len : Nat) : Nat :=
  if len ≤ e.UT_IDSIZE then 0 else size_sub e.SIZE_BITS len e.UT_IDSIZE

/-- The record `write_uwtmp_record` builds (lines 121 to 169, the assignments
to `ut`).  The pointer `term + offset` is the name without its first `offset`
bytes, and `len - offset` is a subtraction of `size_t` values. -/
def fill_ut (e : Env) (user term : CStr) (host : Option CStr) (pid : Nat)
    (add : Nat) : utmp :=
  let ut := utmp.zero e
  let tv : timeval := e.gettimeofday.getD ⟨0, 0⟩
  let len := strlen user
  let ut := { ut with ut_name := memcpy ut.ut_name user (MIN e.UT_NAMESIZE len) }
  let ut :=
    match host with
    | some h =>
      let len := strlen h
      { ut with ut_host := memcpy ut.ut_host h (MIN e.UT_HOSTSIZE len) }
    | none => ut
  let len := strlen term
  let ut := { ut with ut_line := memcpy ut.ut_line term (MIN e.UT_LINESIZE len) }
  let offset := id_offset e len
  let ut :=
    { ut with
      ut_id := memcpy ut.ut_id (term.drop offset) (size_sub e.SIZE_BITS len offset) }
  let ut := { ut with ut_type := if add ≠ 0 then .USER_PROCESS else .DEAD_PROCESS }
  let ut := { ut with ut_pid := pid }
  { ut with
    ut_tv_sec := cast_signed e.TV_SEC_BITS tv.tv_sec
    ut_tv_usec := cast_signed e.TV_USEC_BITS tv.tv_usec }

/-- The function `write_uwtmp_record`. -/
def write_uwtmp_record (e : Env) (user term : CStr) (host : Option CStr)
    (pid : Nat) (add : Nat) (w : World) : Step Nat :=
  let w := w.call .gettimeofday
  let ut := fill_ut e user term host pid add
  let w := w.call .setutent
  let w := w.call (.pututline ut)
  if !e.pututline ut then
    .exit EXIT_FAILURE (w.say e .pututline)
  else
    let w := { w with utmp_file := w.utmp_file ++ [ut] }
    let w := w.call .endutent
    let w := w.call (.updwtmp ut)
    let w := if e.updwtmp ut then { w with wtmp_file := w.wtmp_file ++ [ut] } else w
    .next EXIT_SUCCESS (w.say e (.record add term))

/-- The loop `for (i = 0; i <= 2; ++i)` of `main`, with `n` iterations left. -/
def fstat_loop (e : Env) : Nat → Nat → World → Step Unit
  | 0, _, w => .next () w
  | n + 1, i, w =>
    let w := w.call (.fstat i)
    if e.fstat i < 0 then
      .exit EXIT_FAILURE w
    else
      fstat_loop e n (i + 1) w

/-- The function `main` from `host = argv[2]` on (lines 222 to 258). -/
def main_tail (e : Env) (add : Nat) (w : World) : Step Nat :=
  let host := e.argv.get? 2
  let w := w.call .getppid
  let pid := e.getppid
  if pid = 1 then
    .exit EXIT_FAILURE (w.say e .parent_init)
  else
    let w := (w.call .getuid).call (.getpwuid e.getuid)
    match (e.getpwuid e.getuid).bind passwd.pw_name with
    | none =>
      .exit EXIT_FAILURE
        ((if e.UTEMPTER_DEBUG then w.call .getuid else w).say e (.no_user e.getuid))
    | some pw_name =>
      let w := w.call (.ptsname STDIN_FILENO)
      match e.ptsname STDIN_FILENO with
      | none => .exit EXIT_FAILURE (w.say e .no_pty)
      | some device =>
        match validate_device e device w with
        | .exit s w => .exit s w
        | .next _ w =>
          match
            (match host with
             | some h => validate_hostname e h w
             | none => .next () w) with
          | .exit s w => .exit s w
          | .next _ w =>
            write_uwtmp_record e pw_name (device.drop DEV_PREFIX_LEN) host pid add w

/-- The function `main` (lines 192 to 220, then `main_tail`). -/
def main (e : Env) (w : World) : Step Nat :=
  match fstat_loop e 3 0 w with
  | .exit s w => .exit s w
  | .next _ w =>
    let argc := e.argv.length
    if argc < 2 then
      usage e w
    else if strcmp (e.argv.getD 1 []) ADD = 0 then
      if argc > 3 then usage e w else main_tail e 1 w
    else if strcmp (e.argv.getD 1 []) DEL = 0 then
      if argc ≠ 2 then usage e w else main_tail e 0 w
    else
      usage e w

/-- The process: `main` run from the start; returning `r` from `main` is
`exit(r)`. -/
def run (e : Env) : Outcome :=
  match main e World.init with
  | .exit s w => ⟨s, w⟩
  | .next r w => ⟨r, w⟩

/-! ## The checks, as propositions -/

/-- The three standard descriptors are valid: no `fstat` of the loop fails. -/
def fds_ok (e : Env) : Prop :=
  ¬ e.fstat 0 < 0 ∧ ¬ e.fstat 1 < 0 ∧ ¬ e.fstat 2 < 0

/-- The argument checks of `main` let the invocation through with this value
of `add`. -/
def args_ok (e : Env) (add : Nat) : Prop :=
  ¬ e.argv.length < 2 ∧
  ((strcmp (e.argv.getD 1 []) ADD = 0 ∧ ¬ e.argv.length > 3 ∧ add = 1) ∨
   (strcmp (e.argv.getD 1 []) ADD ≠ 0 ∧ strcmp (e.argv.getD 1 []) DEL = 0 ∧
     e.argv.length = 2 ∧ add = 0))

/-- The four checks of `validate_device` hold of the device. -/
def device_ok (e : Env) (device : CStr) : Prop :=
  DEV_PREFIX <+: device ∧
  0 ≤ e.fcntl_getfl STDIN_FILENO ∧
  (e.fcntl_getfl STDIN_FILENO).toNat &&& e.O_RDWR = e.O_RDWR ∧
  (e.stat device).map stat.st_uid = some e.getuid

/-- The host, when there is one, has graphic characters only. -/
def host_ok (host : Option CStr) : Prop :=
  ∀ h, host = some h → ∀ b ∈ h, isgraph b = true

/-- The checks of `main` from the parent process on, with the user name and
device they resolve, and the success of `pututline`. -/
def tail_ok (e : Env) (add : Nat) (name device : CStr) : Prop :=
  e.getppid ≠ 1 ∧
  (e.getpwuid e.getuid).bind passwd.pw_name = some name ∧
  e.ptsname STDIN_FILENO = some device ∧
  device_ok e device ∧
  host_ok (e.argv.get? 2) ∧
  e.pututline
    (fill_ut e name (device.drop DEV_PREFIX_LEN) (e.argv.get? 2) e.getppid add) = true

/-- Every check of the invocation passes. -/
def accepts (e : Env) (add : Nat) (name device : CStr) : Prop :=
  fds_ok e ∧ args_ok e add ∧ tail_ok e add name device

/-- A character array holds exactly the string: its bytes, then zeros only. -/
def holds (field : List Nat) (s : CStr) : Prop :=
  field.take s.length = s ∧ ∀ b ∈ field.drop s.length, b = 0

instance (e : Env) : Decidable (fds_ok e) := by
  unfold fds_ok; infer_instance

instance (e : Env) (add : Nat) : Decidable (args_ok e add) := by
  unfold args_ok; infer_instance

instance (e : Env) (device : CStr) : Decidable (device_ok e device) := by
  unfold device_ok; infer_instance

instance (host : Option CStr) : Decidable (host_ok host) :=
  match host with
  | none => isTrue (fun _ h => by cases h)
  | some s =>
    if hs : ∀ b ∈ s, isgraph b = true then
      isTrue (fun _ h => by cases h; exact hs)
    else
      isFalse (fun h => hs (h s rfl))

instance (e : Env) (add : Nat) (name device : CStr) :
    Decidable (tail_ok e add name device) := by
  unfold tail_ok; infer_instance

instance (e : Env) (add : Nat) (name device : CStr) :
    Decidable (accepts e add name device) := by
  unfold accepts; infer_instance

instance (field : List Nat) (s : CStr) : Decidable (holds field s) := by
  unfold holds; infer_instance

/-- A character array of width `W` holds the first `min W (length s)` bytes of
the string and zeros after them; a string no longer than the array is there
unchanged. -/
def truncated_into (field : List Nat) (W : Nat) (s : CStr) : Prop :=
  field.length = W ∧
  field.take (min W s.length) = s.take (min W s.length) ∧
  (∀ b ∈ field.drop (min W s.length), b = 0) ∧
  (s.length ≤ W → field.take s.length = s)

instance (field : List Nat) (W : Nat) (s : CStr) : Decidable (truncated_into field W s) := by
  unfold truncated_into; infer_instance

/-! ## Concrete invocations -/

/-- The string "utempter". -/
def str_utempter : CStr := [117, 116, 101, 109, 112, 116, 101, 114]

/-- The string "office". -/
def str_office : CStr := [111, 102, 102, 105, 99, 101]

/-- The string "alice". -/
def str_alice : CStr := [97, 108, 105, 99, 101]

/-- The string "/dev/pts/4". -/
def dev_pts_4 : CStr := [47, 100, 101, 118, 47, 112, 116, 115, 47, 52]

/-- The string "pts/4". -/
def str_pts_4 : CStr := [112, 116, 115, 47, 52]

/-- Scenario A: the caller with UID 1000, named "alice", owns /dev/pts/4,
standard input is open read-write and bound to it, the parent is not init, and
the invocation is `utempter add office`; the constants are those of Linux. -/
def scenario_A : Env :=
  { UTEMPTER_DEBUG := false
    O_RDWR := 2
    UT_NAMESIZE := 32
    UT_LINESIZE := 32
    UT_HOSTSIZE := 256
    UT_IDSIZE := 4
    TV_SEC_BITS := 32
    TV_USEC_BITS := 32
    SIZE_BITS := 64
    argv := [str_utempter, ADD, str_office]
    fstat := fun _ => 0
    getppid := 4242
    getuid := 1000
    getpwuid := fun uid => if uid = 1000 then some ⟨some str_alice⟩ else none
    ptsname := fun _ => some dev_pts_4
    fcntl_getfl := fun _ => 2
    stat := fun path => if path = dev_pts_4 then some ⟨1000⟩ else none
    gettimeofday := some ⟨1700000000, 250000⟩
    pututline := fun _ => true
    updwtmp := fun _ => true }

/-- Scenario B: as scenario A, invoked as `utempter del`. -/
def scenario_B : Env := { scenario_A with argv := [str_utempter, DEL] }

/-- Scenario C: as scenario A, invoked as `utempter add`, the device owned by
UID 1001. -/
def scenario_C : Env :=
  { scenario_A with
    argv := [str_utempter, ADD]
    stat := fun path => if path = dev_pts_4 then some ⟨1001⟩ else none }

/-- Scenario D: as scenario A, invoked as `utempter add host1 host2`. -/
def scenario_D : Env :=
  { scenario_A with
    argv := [str_utempter, ADD, [104, 111, 115, 116, 49], [104, 111, 115, 116, 50]] }

/-- As scenario A, with the host "a b", which has a space in it. -/
def env_bad_host : Env := { scenario_A with argv := [str_utempter, ADD, [97, 32, 98]] }

/-- The string "/tmp/x". -/
def str_tmp_x : CStr := [47, 116, 109, 112, 47, 120]

/-- As scenario A, with standard input resolved to "/tmp/x", a path outside
"/dev/" that can be stat'ed and belongs to the caller. -/
def env_tmp_device : Env :=
  { scenario_A with
    ptsname := fun _ => some str_tmp_x
    stat := fun _ => some ⟨1000⟩ }

/-- As scenario A, with init as the parent process. -/
def env_init_parent : Env := { scenario_A with getppid := 1 }

/-- As scenario A, with standard input open read-only (`O_RDONLY` is 0). -/
def env_rdonly : Env := { scenario_A with fcntl_getfl := fun _ => 0 }

/-- As scenario A, with a record for UID 1000 whose user name is the empty
string. -/
def env_empty_name : Env :=
  { scenario_A with getpwuid := fun uid => if uid = 1000 then some ⟨some []⟩ else none }

/-- As scenario A, with no record for any UID in the identity database. -/
def env_no_user : Env := { scenario_A with getpwuid := fun _ => none }

/-- A host of 257 letters "a", one more than the `ut_host` field of Linux. -/
def long_host : CStr := List.replicate 257 97

/-- As scenario A, invoked as `utempter add <long_host>`. -/
def env_long_host : Env := { scenario_A with argv := [str_utempter, ADD, long_host] }

/-- A device path "/dev/" followed by 33 letters "t", so that the terminal name
is one byte longer than the `ut_line` field of Linux. -/
def long_tty : CStr := DEV_PREFIX ++ List.replicate 33 116

/-- As scenario B (`utempter del`), standard input bound to `long_tty`, which
the caller owns. -/
def env_long_tty : Env :=
  { scenario_B with
    ptsname := fun _ => some long_tty
    stat := fun path => if path = long_tty then some ⟨1000⟩ else none }

/-- As scenario D, built with `UTEMPTER_DEBUG`, and with descriptor 2 closed. -/
def env_closed_fd : Env :=
  { scenario_D with
    UTEMPTER_DEBUG := true
    fstat := fun fd => if fd = 2 then -1 else 0 }

/-- As scenario A, with the append to the historical log failing. -/
def env_wtmp_fails : Env := { scenario_A with updwtmp := fun _ => false }

/-- As scenario B (`utempter del`), with the append to the historical log
failing. -/
def env_del_wtmp_fails : Env := { scenario_B with updwtmp := fun _ => false }

/-- As scenario A, with `pututline` failing. -/
def env_put_fails : Env := { scenario_A with pututline := fun _ => false }

/-! ## Library lemmas -/

theorem strncmp_eq_zero_iff (p : CStr) (hp : 0 ∉ p) (d : CStr) :
    strncmp d p p.length = 0 ↔ p <+: d := by
  induction p generalizing d with
  | nil => simp [strncmp]
  | cons b t ih =>
    have hb : b ≠ 0 := fun h => hp (by simp [h])
    have ht : 0 ∉ t := fun h => hp (by simp [h])
    cases d with
    | nil =>
      simp only [List.length_cons, strncmp]
      constructor
      · intro h; omega
      · intro h; simp at h
    | cons a s =>
      simp only [List.length_cons, strncmp]
      by_cases hab : a = b
      · subst hab
        simp [ih ht s, List.cons_prefix_cons]
      · simp only [hab, if_false]
        constructor
        · intro h; omega
        · intro h
          rw [List.cons_prefix_cons] at h
          exact absurd h.1.symm hab

theorem strncmp_dev_iff (d : CStr) :
    strncmp d DEV_PREFIX DEV_PREFIX_LEN = 0 ↔ DEV_PREFIX <+: d :=
  strncmp_eq_zero_iff DEV_PREFIX (by decide) d

theorem strcmp_eq_zero_iff (a : CStr) (ha : 0 ∉ a) (b : CStr) (hb : 0 ∉ b) :
    strcmp a b = 0 ↔ a = b := by
  induction a generalizing b with
  | nil =>
    cases b with
    | nil => simp [strcmp]
    | cons y t =>
      have hy : y ≠ 0 := fun h => hb (by simp [h])
      simp only [strcmp]
      constructor
      · intro h; omega
      · intro h; simp at h
  | cons x s ih =>
    have hx : x ≠ 0 := fun h => ha (by simp [h])
    have hs : 0 ∉ s := fun h => ha (by simp [h])
    cases b with
    | nil =>
      simp only [strcmp]
      constructor
      · intro h; omega
      · intro h; simp at h
    | cons y t =>
      have ht : 0 ∉ t := fun h => hb (by simp [h])
      simp only [strcmp]
      by_cases hxy : x = y
      · subst hxy
        simp [ih hs t ht]
      · simp only [hxy, if_false]
        constructor
        · intro h; omega
        · intro h
          exact absurd (List.cons.inj h).1 hxy

/-! ## Effects of the steps -/

@[simp] theorem call_utmp_file (w : World) (c : Call) :
    (w.call c).utmp_file = w.utmp_file := rfl

@[simp] theorem call_wtmp_file (w : World) (c : Call) :
    (w.call c).wtmp_file = w.wtmp_file := rfl

@[simp] theorem call_stderr (w : World) (c : Call) :
    (w.call c).stderr = w.stderr := rfl

@[simp] theorem call_calls (w : World) (c : Call) :
    (w.call c).calls = w.calls ++ [c] := rfl

@[simp] theorem say_utmp_file (w : World) (e : Env) (d : Diag) :
    (w.say e d).utmp_file = w.utmp_file := by
  unfold World.say; split <;> rfl

@[simp] theorem say_wtmp_file (w : World) (e : Env) (d : Diag) :
    (w.say e d).wtmp_file = w.wtmp_file := by
  unfold World.say; split <;> rfl

@[simp] theorem say_calls (w : World) (e : Env) (d : Diag) :
    (w.say e d).calls = w.calls := by
  unfold World.say; split <;> rfl

theorem say_stderr (w : World) (e : Env) (d : Diag) :
    (w.say e d).stderr = if e.UTEMPTER_DEBUG then w.stderr ++ [d] else w.stderr := by
  unfold World.say; split <;> rfl

theorem fstat_loop_three (e : Env) (w : World) :
    fstat_loop e 3 0 w =
      if e.fstat 0 < 0 then .exit EXIT_FAILURE (w.call (.fstat 0))
      else if e.fstat 1 < 0 then
        .exit EXIT_FAILURE ((w.call (.fstat 0)).call (.fstat 1))
      else if e.fstat 2 < 0 then
        .exit EXIT_FAILURE (((w.call (.fstat 0)).call (.fstat 1)).call (.fstat 2))
      else .next () (((w.call (.fstat 0)).call (.fstat 1)).call (.fstat 2)) := by
  simp only [fstat_loop]

theorem validate_device_next (e : Env) (device : CStr) (w : World)
    (h : device_ok e device) :
    validate_device e device w =
      .next () (((w.call (.fcntl STDIN_FILENO)).call (.stat device)).call .getuid) := by
  obtain ⟨h1, h2, h3, h4⟩ := h
  have h1 := (strncmp_dev_iff device).2 h1
  unfold validate_device
  cases hs : e.stat device with
  | none => simp [hs] at h4
  | some stb =>
    have h5 : e.getuid = stb.st_uid := by
      rw [hs] at h4; simp at h4; exact h4.symm
    simp [h1, h3, h5, not_lt.2 h2]

theorem validate_device_exit (e : Env) (device : CStr) (w : World)
    (h : ¬ device_ok e device) :
    ∃ w1, validate_device e device w = .exit EXIT_FAILURE w1 ∧
      w1.utmp_file = w.utmp_file ∧ w1.wtmp_file = w.wtmp_file := by
  unfold validate_device
  by_cases h1 : strncmp device DEV_PREFIX DEV_PREFIX_LEN = 0
  swap
  · simp only [ne_eq, h1, not_false_eq_true, if_true]
    exact ⟨_, rfl, by simp, by simp⟩
  by_cases h2 : e.fcntl_getfl STDIN_FILENO < 0
  · simp only [ne_eq, h1, not_true_eq_false, if_false, h2, if_true]
    exact ⟨_, rfl, by simp, by simp⟩
  by_cases h3 : (e.fcntl_getfl STDIN_FILENO).toNat &&& e.O_RDWR = e.O_RDWR
  swap
  · simp only [ne_eq, h1, not_true_eq_false, if_false, h2, h3, not_false_eq_true, if_true]
    exact ⟨_, rfl, by simp, by simp⟩
  cases hs : e.stat device with
  | none =>
    simp only [ne_eq, h1, not_true_eq_false, if_false, h2, h3]
    exact ⟨_, rfl, by simp, by simp⟩
  | some stb =>
    have h5 : e.getuid ≠ stb.st_uid := by
      intro h5
      apply h
      refine ⟨(strncmp_dev_iff device).1 h1, not_lt.1 h2, h3, ?_⟩
      simp [hs, h5]
    simp only [ne_eq, h1, not_true_eq_false, if_false, h2, h3, h5, not_false_eq_true,
      if_true]
    exact ⟨_, rfl, by simp, by simp⟩

theorem validate_hostname_next (e : Env) (host : CStr) (w : World)
    (h : ∀ b ∈ host, isgraph b = true) :
    validate_hostname e host w = .next () w := by
  induction host with
  | nil => rfl
  | cons c t ih =>
    have hc : isgraph c = true := h c (by simp)
    have ht : ∀ b ∈ t, isgraph b = true := fun b hb => h b (by simp [hb])
    simp [validate_hostname, hc, ih ht]

theorem validate_hostname_exit (e : Env) (host : CStr) (w : World)
    (h : ¬ ∀ b ∈ host, isgraph b = true) :
    validate_hostname e host w = .exit EXIT_FAILURE (w.say e .invalid_host) := by
  induction host with
  | nil => simp at h
  | cons c t ih =>
    by_cases hc : isgraph c = true
    · have ht : ¬ ∀ b ∈ t, isgraph b = true := by
        intro ht
        apply h
        intro b hb
        rcases List.mem_cons.1 hb with rfl | hb
        · exact hc
        · exact ht b hb
      simp [validate_hostname, hc, ih ht]
    · simp [validate_hostname, hc]

theorem write_uwtmp_record_next (e : Env) (user term : CStr) (host : Option CStr)
    (pid add : Nat) (w : World)
    (h : e.pututline (fill_ut e user term host pid add) = true) :
    ∃ w1, write_uwtmp_record e user term host pid add w = .next EXIT_SUCCESS w1 ∧
      w1.utmp_file = w.utmp_file ++ [fill_ut e user term host pid add] ∧
      w1.wtmp_file = w.wtmp_file ++
        (if e.updwtmp (fill_ut e user term host pid add) then
          [fill_ut e user term host pid add] else []) ∧
      w1.calls = w.calls ++ [.gettimeofday, .setutent,
        .pututline (fill_ut e user term host pid add), .endutent,
        .updwtmp (fill_ut e user term host pid add)] ∧
      w1.stderr = if e.UTEMPTER_DEBUG then w.stderr ++ [.record add term] else w.stderr := by
  unfold write_uwtmp_record
  simp only [h, Bool.not_true, Bool.false_eq_true, if_false]
  refine ⟨_, rfl, ?_, ?_, ?_, ?_⟩
  · by_cases hu : e.updwtmp (fill_ut e user term host pid add) = true <;> simp [hu]
  · by_cases hu : e.updwtmp (fill_ut e user term host pid add) = true <;> simp [hu]
  · by_cases hu : e.updwtmp (fill_ut e user term host pid add) = true <;> simp [hu]
  · by_cases hu : e.updwtmp (fill_ut e user term host pid add) = true <;>
      simp [hu, say_stderr]

theorem write_uwtmp_record_exit (e : Env) (user term : CStr) (host : Option CStr)
    (pid add : Nat) (w : World)
    (h : e.pututline (fill_ut e user term host pid add) = false) :
    ∃ w1, write_uwtmp_record e user term host pid add w = .exit EXIT_FAILURE w1 ∧
      w1.utmp_file = w.utmp_file ∧ w1.wtmp_file = w.wtmp_file := by
  unfold write_uwtmp_record
  simp only [h, Bool.not_false, if_true]
  exact ⟨_, rfl, by simp, by simp⟩

theorem host_step_next (e : Env) (host : Option CStr) (w : World) (h : host_ok host) :
    (match host with
     | some h => validate_hostname e h w
     | none => Step.next () w) = .next () w := by
  cases host with
  | none => rfl
  | some s => exact validate_hostname_next e s w (h s rfl)

theorem host_step_exit (e : Env) (host : Option CStr) (w : World) (h : ¬ host_ok host) :
    (match host with
     | some h => validate_hostname e h w
     | none => Step.next () w) = .exit EXIT_FAILURE (w.say e .invalid_host) := by
  cases host with
  | none => exact absurd (fun s hs => by cases hs) h
  | some s =>
    apply validate_hostname_exit
    intro hs
    apply h
    intro t ht
    cases ht
    exact hs

theorem main_tail_to_writer (e : Env) (add : Nat) (w : World) (name device : CStr)
    (h1 : e.getppid ≠ 1)
    (h2 : (e.getpwuid e.getuid).bind passwd.pw_name = some name)
    (h3 : e.ptsname STDIN_FILENO = some device)
    (h4 : device_ok e device) (h5 : host_ok (e.argv.get? 2)) :
    main_tail e add w =
      write_uwtmp_record e name (device.drop DEV_PREFIX_LEN) (e.argv.get? 2) e.getppid add
        (((((((w.call .getppid).call .getuid).call (.getpwuid e.getuid)).call
          (.ptsname STDIN_FILENO)).call (.fcntl STDIN_FILENO)).call (.stat device)).call
          .getuid) := by
  unfold main_tail
  simp only [h1, if_false, h2, h3, validate_device_next e device _ h4,
    host_step_next e _ _ h5]

theorem main_tail_next (e : Env) (add : Nat) (w : World) (name device : CStr)
    (h : tail_ok e add name device) :
    ∃ w1, main_tail e add w = .next EXIT_SUCCESS w1 ∧
      w1.utmp_file = w.utmp_file ++
        [fill_ut e name (device.drop DEV_PREFIX_LEN) (e.argv.get? 2) e.getppid add] ∧
      w1.wtmp_file = w.wtmp_file ++
        (if e.updwtmp
            (fill_ut e name (device.drop DEV_PREFIX_LEN) (e.argv.get? 2) e.getppid add)
         then [fill_ut e name (device.drop DEV_PREFIX_LEN) (e.argv.get? 2) e.getppid add]
         else []) ∧
      w1.calls = w.calls ++ [.getppid, .getuid, .getpwuid e.getuid,
        .ptsname STDIN_FILENO, .fcntl STDIN_FILENO, .stat device, .getuid,
        .gettimeofday, .setutent,
        .pututline
          (fill_ut e name (device.drop DEV_PREFIX_LEN) (e.argv.get? 2) e.getppid add),
        .endutent,
        .updwtmp
          (fill_ut e name (device.drop DEV_PREFIX_LEN) (e.argv.get? 2) e.getppid add)] ∧
      w1.stderr = if e.UTEMPTER_DEBUG then
        w.stderr ++ [.record add (device.drop DEV_PREFIX_LEN)] else w.stderr := by
  obtain ⟨h1, h2, h3, h4, h5, h6⟩ := h
  obtain ⟨w1, hw, hu, hwt, hc, hs⟩ := write_uwtmp_record_next e name
    (device.drop DEV_PREFIX_LEN) (e.argv.get? 2) e.getppid add
    (((((((w.call .getppid).call .getuid).call (.getpwuid e.getuid)).call
      (.ptsname STDIN_FILENO)).call (.fcntl STDIN_FILENO)).call (.stat device)).call
      .getuid) h6
  refine ⟨w1, ?_, ?_, ?_, ?_, ?_⟩
  · unfold main_tail
    simp only [h1, if_false, h2, h3, validate_device_next e device _ h4,
      host_step_next e _ _ h5, hw]
  · simpa using hu
  · simpa using hwt
  · simpa using hc
  · simpa using hs

theorem main_tail_exit (e : Env) (add : Nat) (w : World)
    (h : ∀ name device, ¬ tail_ok e add name device) :
    ∃ w1, main_tail e add w = .exit EXIT_FAILURE w1 ∧
      w1.utmp_file = w.utmp_file ∧ w1.wtmp_file = w.wtmp_file := by
  unfold main_tail
  by_cases h1 : e.getppid = 1
  · simp only [h1, if_true]
    exact ⟨_, rfl, by simp, by simp⟩
  cases h2 : (e.getpwuid e.getuid).bind passwd.pw_name with
  | none =>
    simp only [h1, if_false]
    refine ⟨_, rfl, ?_, ?_⟩ <;> cases e.UTEMPTER_DEBUG <;> simp
  | some name =>
    cases h3 : e.ptsname STDIN_FILENO with
    | none =>
      simp only [h1, if_false]
      exact ⟨_, rfl, by simp, by simp⟩
    | some device =>
      simp only [h1, if_false]
      by_cases h4 : device_ok e device
      swap
      · obtain ⟨w1, hw, hu, hwt⟩ := validate_device_exit e device
          ((((w.call .getppid).call .getuid).call (.getpwuid e.getuid)).call
            (.ptsname STDIN_FILENO)) h4
        simp only [hw]
        exact ⟨_, rfl, by simpa using hu, by simpa using hwt⟩
      simp only [validate_device_next e device _ h4]
      by_cases h5 : host_ok (e.argv.get? 2)
      swap
      · simp only [host_step_exit e _ _ h5]
        exact ⟨_, rfl, by simp, by simp⟩
      simp only [host_step_next e _ _ h5]
      cases h6 : e.pututline
          (fill_ut e name (device.drop DEV_PREFIX_LEN) (e.argv.get? 2) e.getppid add) with
      | true => exact absurd ⟨h1, h2, h3, h4, h5, h6⟩ (h name device)
      | false =>
        obtain ⟨w1, hw, hu, hwt⟩ := write_uwtmp_record_exit e name
          (device.drop DEV_PREFIX_LEN) (e.argv.get? 2) e.getppid add
          (((((((w.call .getppid).call .getuid).call (.getpwuid e.getuid)).call
            (.ptsname STDIN_FILENO)).call (.fcntl STDIN_FILENO)).call (.stat device)).call
            .getuid) h6
        simp only [hw]
        exact ⟨_, rfl, by simpa using hu, by simpa using hwt⟩

theorem main_of_bad_fds (e : Env) (w : World) (h : ¬ fds_ok e) :
    ∃ w1, main e w = .exit EXIT_FAILURE w1 ∧
      w1.utmp_file = w.utmp_file ∧ w1.wtmp_file = w.wtmp_file ∧
      w1.stderr = w.stderr ∧ ∀ c ∈ w1.calls, c ∈ w.calls ∨ ∃ fd, c = .fstat fd := by
  unfold main
  rw [fstat_loop_three]
  by_cases h0 : e.fstat 0 < 0
  · simp only [h0, if_true]
    refine ⟨_, rfl, by simp, by simp, by simp, ?_⟩
    intro c hc
    simp only [call_calls, List.mem_append, List.mem_singleton] at hc
    rcases hc with hc | hc
    · exact Or.inl hc
    · exact Or.inr ⟨_, hc⟩
  by_cases h1 : e.fstat 1 < 0
  · simp only [h0, h1, if_true, if_false]
    refine ⟨_, rfl, by simp, by simp, by simp, ?_⟩
    intro c hc
    simp only [call_calls, List.mem_append, List.mem_singleton] at hc
    rcases hc with (hc | hc) | hc
    · exact Or.inl hc
    · exact Or.inr ⟨_, hc⟩
    · exact Or.inr ⟨_, hc⟩
  by_cases h2 : e.fstat 2 < 0
  · simp only [h0, h1, h2, if_true, if_false]
    refine ⟨_, rfl, by simp, by simp, by simp, ?_⟩
    intro c hc
    simp only [call_calls, List.mem_append, List.mem_singleton] at hc
    rcases hc with ((hc | hc) | hc) | hc
    · exact Or.inl hc
    · exact Or.inr ⟨_, hc⟩
    · exact Or.inr ⟨_, hc⟩
    · exact Or.inr ⟨_, hc⟩
  exact absurd ⟨h0, h1, h2⟩ h

theorem main_of_bad_args (e : Env) (w : World) (hf : fds_ok e)
    (h : ∀ add, ¬ args_ok e add) :
    main e w =
      .exit EXIT_FAILURE
        ((((w.call (.fstat 0)).call (.fstat 1)).call (.fstat 2)).say e .usage) := by
  obtain ⟨h0, h1, h2⟩ := hf
  unfold main
  rw [fstat_loop_three]
  simp only [h0, h1, h2, if_false]
  by_cases hc : e.argv.length < 2
  · simp only [hc, if_true, usage]
  simp only [hc, if_false]
  by_cases ha : strcmp (e.argv.getD 1 []) ADD = 0
  · simp only [ha, if_true]
    by_cases h3 : e.argv.length > 3
    · simp only [h3, if_true, usage]
    · exact absurd ⟨hc, Or.inl ⟨ha, h3, rfl⟩⟩ (h 1)
  simp only [ha, if_false]
  by_cases hd : strcmp (e.argv.getD 1 []) DEL = 0
  · simp only [hd, if_true]
    by_cases h3 : e.argv.length ≠ 2
    · rw [if_pos h3]; rfl
    · exact absurd ⟨hc, Or.inr ⟨ha, hd, not_not.1 h3, rfl⟩⟩ (h 0)
  simp only [hd, if_false, usage]

theorem main_of_good_args (e : Env) (w : World) (add : Nat) (hf : fds_ok e)
    (h : args_ok e add) :
    main e w = main_tail e add (((w.call (.fstat 0)).call (.fstat 1)).call (.fstat 2)) := by
  obtain ⟨h0, h1, h2⟩ := hf
  obtain ⟨hc, h⟩ := h
  unfold main
  rw [fstat_loop_three]
  simp only [h0, h1, h2, if_false, hc]
  rcases h with ⟨ha, h3, rfl⟩ | ⟨ha, hd, h3, rfl⟩
  · simp only [ha, if_true, h3, if_false]
  · simp only [ha, if_false, hd, if_true, h3, ne_eq, not_true_eq_false]

theorem args_ok_unique (e : Env) (a b : Nat) (ha : args_ok e a) (hb : args_ok e b) :
    a = b := by
  obtain ⟨_, ha⟩ := ha
  obtain ⟨_, hb⟩ := hb
  rcases ha with ⟨h1, _, rfl⟩ | ⟨h1, _, _, rfl⟩ <;>
    rcases hb with ⟨h2, _, rfl⟩ | ⟨h2, _, _, rfl⟩ <;>
    first | rfl | exact absurd h1 h2 | exact absurd h2 h1

theorem run_accept (e : Env) (add : Nat) (name device : CStr)
    (h : accepts e add name device) :
    (run e).status = EXIT_SUCCESS ∧
    (run e).world.utmp_file =
      [fill_ut e name (device.drop DEV_PREFIX_LEN) (e.argv.get? 2) e.getppid add] ∧
    (run e).world.wtmp_file =
      (if e.updwtmp
          (fill_ut e name (device.drop DEV_PREFIX_LEN) (e.argv.get? 2) e.getppid add)
       then [fill_ut e name (device.drop DEV_PREFIX_LEN) (e.argv.get? 2) e.getppid add]
       else []) ∧
    (run e).world.calls = [.fstat 0, .fstat 1, .fstat 2, .getppid, .getuid,
      .getpwuid e.getuid, .ptsname STDIN_FILENO, .fcntl STDIN_FILENO, .stat device,
      .getuid, .gettimeofday, .setutent,
      .pututline
        (fill_ut e name (device.drop DEV_PREFIX_LEN) (e.argv.get? 2) e.getppid add),
      .endutent,
      .updwtmp
        (fill_ut e name (device.drop DEV_PREFIX_LEN) (e.argv.get? 2) e.getppid add)] ∧
    (run e).world.stderr =
      if e.UTEMPTER_DEBUG then [.record add (device.drop DEV_PREFIX_LEN)] else [] := by
  obtain ⟨hf, ha, ht⟩ := h
  obtain ⟨w1, hw, hu, hwt, hc, hs⟩ := main_tail_next e add
    (((World.init.call (.fstat 0)).call (.fstat 1)).call (.fstat 2)) name device ht
  unfold run
  rw [main_of_good_args e World.init add hf ha, hw]
  refine ⟨rfl, ?_, ?_, ?_, ?_⟩
  · simpa [World.init] using hu
  · simpa [World.init] using hwt
  · simpa [World.init] using hc
  · simpa [World.init] using hs

theorem run_reject (e : Env) (h : ∀ add name device, ¬ accepts e add name device) :
    (run e).status = EXIT_FAILURE ∧ (run e).world.utmp_file = [] ∧
      (run e).world.wtmp_file = [] := by
  unfold run
  by_cases hf : fds_ok e
  swap
  · obtain ⟨w1, hw, hu, hwt, _, _⟩ := main_of_bad_fds e World.init hf
    rw [hw]
    exact ⟨rfl, by simpa [World.init] using hu, by simpa [World.init] using hwt⟩
  by_cases ha : ∃ add, args_ok e add
  swap
  · rw [main_of_bad_args e World.init hf (fun add hadd => ha ⟨add, hadd⟩)]
    exact ⟨rfl, by simp [World.init], by simp [World.init]⟩
  obtain ⟨add, ha⟩ := ha
  obtain ⟨w1, hw, hu, hwt⟩ := main_tail_exit e add
    (((World.init.call (.fstat 0)).call (.fstat 1)).call (.fstat 2))
    (fun name device ht => h add name device ⟨hf, ha, ht⟩)
  rw [main_of_good_args e World.init add hf ha, hw]
  exact ⟨rfl, by simpa [World.init] using hu, by simpa [World.init] using hwt⟩

theorem run_cases (e : Env) :
    (∃ add name device, accepts e add name device) ∨
      ∀ add name device, ¬ accepts e add name device := by
  by_cases h : ∃ add name device, accepts e add name device
  · exact Or.inl h
  · right
    intro add name device ha
    exact h ⟨add, name, device, ha⟩

theorem accepts_of_success (e : Env) (h : (run e).status = EXIT_SUCCESS) :
    ∃ add name device, accepts e add name device := by
  rcases run_cases e with ha | ha
  · exact ha
  · have := (run_reject e ha).1
    rw [h] at this
    exact absurd this (by decide)

theorem reject_of_not_device_ok (e : Env) (device : CStr)
    (hp : e.ptsname STDIN_FILENO = some device) (h : ¬ device_ok e device) :
    (run e).status = EXIT_FAILURE ∧ (run e).world.utmp_file = [] ∧
      (run e).world.wtmp_file = [] := by
  apply run_reject
  rintro add name dev ⟨_, _, _, _, h3, h4, _⟩
  rw [hp] at h3
  cases h3
  exact h h4

/-! ## The record -/

theorem fill_ut_type (e : Env) (user term : CStr) (host : Option CStr) (pid add : Nat) :
    (fill_ut e user term host pid add).ut_type =
      if add ≠ 0 then UtType.USER_PROCESS else UtType.DEAD_PROCESS := by
  cases host <;> rfl

theorem fill_ut_pid (e : Env) (user term : CStr) (host : Option CStr) (pid add : Nat) :
    (fill_ut e user term host pid add).ut_pid = pid := by
  cases host <;> rfl

theorem fill_ut_name (e : Env) (user term : CStr) (host : Option CStr) (pid add : Nat) :
    (fill_ut e user term host pid add).ut_name =
      memcpy (List.replicate e.UT_NAMESIZE 0) user (MIN e.UT_NAMESIZE (strlen user)) := by
  cases host <;> rfl

theorem fill_ut_line (e : Env) (user term : CStr) (host : Option CStr) (pid add : Nat) :
    (fill_ut e user term host pid add).ut_line =
      memcpy (List.replicate e.UT_LINESIZE 0) term (MIN e.UT_LINESIZE (strlen term)) := by
  cases host <;> rfl

theorem fill_ut_host_some (e : Env) (user term h : CStr) (pid add : Nat) :
    (fill_ut e user term (some h) pid add).ut_host =
      memcpy (List.replicate e.UT_HOSTSIZE 0) h (MIN e.UT_HOSTSIZE (strlen h)) := rfl

theorem fill_ut_host_none (e : Env) (user term : CStr) (pid add : Nat) :
    (fill_ut e user term none pid add).ut_host = List.replicate e.UT_HOSTSIZE 0 := rfl

theorem fill_ut_id (e : Env) (user term : CStr) (host : Option CStr) (pid add : Nat) :
    (fill_ut e user term host pid add).ut_id =
      memcpy (List.replicate e.UT_IDSIZE 0)
        (term.drop (id_offset e (strlen term)))
        (size_sub e.SIZE_BITS (strlen term) (id_offset e (strlen term))) := by
  cases host <;> rfl

theorem size_sub_of_le (bits a b : Nat) (hb : b ≤ a) (ha : a < 2 ^ bits) :
    size_sub bits a b = a - b := by
  unfold size_sub
  have hb2 : b < 2 ^ bits := by omega
  rw [Nat.mod_eq_of_lt hb2]
  have h1 : a + 2 ^ bits - b = (a - b) + 2 ^ bits := by omega
  rw [h1, Nat.add_mod_right, Nat.mod_eq_of_lt (by omega)]

theorem id_offset_eq (e : Env) (len : Nat) (hlen : len < 2 ^ e.SIZE_BITS) :
    id_offset e len = len - min len e.UT_IDSIZE := by
  unfold id_offset
  by_cases h : len ≤ e.UT_IDSIZE
  · rw [if_pos h, Nat.min_eq_left h]
    omega
  · rw [if_neg h, size_sub_of_le _ _ _ (by omega) hlen, Nat.min_eq_right (by omega)]

theorem MIN_eq_min (a b : Nat) : MIN a b = min a b := by
  unfold MIN
  split <;> omega

theorem memcpy_zero_eq (W : Nat) (s : CStr) :
    memcpy (List.replicate W 0) s (MIN W (strlen s)) =
      s.take W ++ List.replicate (W - s.length) 0 := by
  unfold memcpy strlen
  rw [MIN_eq_min]
  by_cases h : W ≤ s.length
  · rw [Nat.min_eq_left h]
    simp [Nat.sub_eq_zero_of_le h]
  · have h1 : s.length ≤ W := by omega
    rw [Nat.min_eq_right h1, List.take_of_length_le h1, List.take_of_length_le (le_refl _)]
    simp

theorem memcpy_zero_length (W : Nat) (s : CStr) :
    (memcpy (List.replicate W 0) s (MIN W (strlen s))).length = W := by
  rw [memcpy_zero_eq]
  simp
  omega

theorem memcpy_zero_holds (W : Nat) (s : CStr) :
    holds (memcpy (List.replicate W 0) s (MIN W (strlen s))) (s.take W) := by
  rw [memcpy_zero_eq]
  constructor
  · simp
  · intro b hb
    simp only [List.drop_left, List.mem_replicate] at hb
    exact hb.2

theorem holds_length_le (field : List Nat) (s : CStr) (h : holds field s) :
    s.length ≤ field.length := by
  have h1 := congrArg List.length h.1
  simp at h1
  omega

theorem host_getD_holds (e : Env) (user term : CStr) (host : Option CStr)
    (pid add : Nat) :
    holds (fill_ut e user term host pid add).ut_host
      ((host.getD []).take e.UT_HOSTSIZE) := by
  cases host with
  | none =>
    rw [fill_ut_host_none]
    refine ⟨by simp, ?_⟩
    intro b hb
    simp only [Option.getD_none, List.take_nil, List.length_nil, List.drop_zero,
      List.mem_replicate] at hb
    exact hb.2
  | some h =>
    rw [fill_ut_host_some]
    exact memcpy_zero_holds e.UT_HOSTSIZE h

/-! ## The claims -/

/-- C1: for every real user ID (`e.getuid`) and every device resolved from
standard input, the invocation exits with success only if the device can be
stat'ed and its owner is the real user ID; for every other owner it exits with
the failure status and stores no record, in the session database or in the
historical log.  This holds for every argument list, `add` and `del` included. -/
theorem C1_success_only_for_owner (e : Env) (device : CStr)
    (hp : e.ptsname STDIN_FILENO = some device) :
    ((run e).status = EXIT_SUCCESS →
      ∃ stb, e.stat device = some stb ∧ stb.st_uid = e.getuid) ∧
    (∀ stb, e.stat device = some stb → stb.st_uid ≠ e.getuid →
      (run e).status = EXIT_FAILURE ∧ (run e).world.utmp_file = [] ∧
        (run e).world.wtmp_file = []) := by
  constructor
  · intro hs
    obtain ⟨add, name, dev, _, _, _, _, h3, h4, _⟩ := accepts_of_success e hs
    rw [hp] at h3
    cases h3
    obtain ⟨_, _, _, h⟩ := h4
    cases hst : e.stat device with
    | none => simp [hst] at h
    | some stb => exact ⟨stb, rfl, by simpa [hst] using h⟩
  · intro stb hst hne
    apply reject_of_not_device_ok e device hp
    rintro ⟨_, _, _, h⟩
    rw [hst] at h
    exact hne (by simpa using h)

/-- Scenario C, an instance of C1: caller UID 1000, device owned by UID 1001,
invoked as `add`: exit failure, no record. -/
theorem C1_witness_scenario_C :
    (run scenario_C).status = EXIT_FAILURE ∧ (run scenario_C).world.utmp_file = [] ∧
      (run scenario_C).world.wtmp_file = [] :=
  (C1_success_only_for_owner scenario_C dev_pts_4 rfl).2 ⟨1001⟩ rfl (by decide)

/-- C2: for every argument vector (of NUL-free strings) whose arguments after
the program name are not exactly ["add"], ["add", host] or ["del"], the
invocation exits with the failure status and stores no record, whatever the
caller identity, the parent process and the device are; the only calls made
before the exit are the `fstat` calls of the descriptor check, so no identity or
device resolution has taken place. -/
theorem C2_usage_error (e : Env) (hwf : ∀ s ∈ e.argv, 0 ∉ s)
    (h1 : e.argv.tail ≠ [ADD]) (h2 : ∀ host, e.argv.tail ≠ [ADD, host])
    (h3 : e.argv.tail ≠ [DEL]) :
    (run e).status = EXIT_FAILURE ∧ (run e).world.utmp_file = [] ∧
      (run e).world.wtmp_file = [] ∧
      ∀ c ∈ (run e).world.calls, ∃ fd, c = Call.fstat fd := by
  have hargs : ∀ add, ¬ args_ok e add := by
    rintro add ⟨hlen, h⟩
    match hargv : e.argv with
    | [] => simp [hargv] at hlen
    | [_] => simp [hargv] at hlen
    | p :: v :: rest =>
      have hv : 0 ∉ v := hwf v (by simp [hargv])
      simp only [hargv, List.getD_cons_succ, List.getD_cons_zero, List.length_cons,
        List.tail_cons] at h h1 h2 h3
      rcases h with ⟨ha, hl, _⟩ | ⟨_, hd, hl, _⟩
      · have hva : v = ADD := (strcmp_eq_zero_iff v hv ADD (by decide)).1 ha
        subst hva
        match rest, hl with
        | [], _ => exact h1 rfl
        | [host], _ => exact h2 host rfl
        | _ :: _ :: _, hl => simp at hl
      · have hvd : v = DEL := (strcmp_eq_zero_iff v hv DEL (by decide)).1 hd
        subst hvd
        match rest, hl with
        | [], _ => exact h3 rfl
        | _ :: _, hl => simp at hl
  by_cases hf : fds_ok e
  · unfold run
    rw [main_of_bad_args e World.init hf hargs]
    refine ⟨rfl, by simp [World.init], by simp [World.init], ?_⟩
    intro c hc
    simp only [say_calls, call_calls, World.init, List.nil_append, List.cons_append,
      List.mem_cons, List.mem_singleton, List.not_mem_nil, or_false] at hc
    rcases hc with hc | hc | hc <;> exact ⟨_, hc⟩
  · obtain ⟨w1, hw, hu, hwt, _, hc⟩ := main_of_bad_fds e World.init hf
    unfold run
    rw [hw]
    refine ⟨rfl, by simpa [World.init] using hu, by simpa [World.init] using hwt, ?_⟩
    intro c hcm
    rcases hc c hcm with hc | hc
    · simp [World.init] at hc
    · exact hc

/-- Scenario D, an instance of C2: `add host1 host2` exits with failure before
any identity or device resolution. -/
theorem C2_witness_scenario_D :
    (run scenario_D).status = EXIT_FAILURE ∧ (run scenario_D).world.utmp_file = [] ∧
      (run scenario_D).world.wtmp_file = [] ∧
      ∀ c ∈ (run scenario_D).world.calls, ∃ fd, c = Call.fstat fd :=
  C2_usage_error scenario_D (by decide) (by decide)
    (fun host h => by simp [scenario_D] at h) (by decide)

/-- C3: `validate_hostname` accepts a host (returns instead of exiting) iff
every byte of it is a graphic character.  In an `add <host>` invocation, a host
with a space, a tab, a control byte or a byte outside ASCII makes the process
exit with the failure status with no record stored; a host of graphic
characters only lets an invocation that passes the earlier checks proceed to
the record writer, called with that host. -/
theorem C3_host_sanitizer (e : Env) (prog host : CStr)
    (hargv : e.argv = [prog, ADD, host]) :
    (∀ w, (∃ w1, validate_hostname e host w = .next () w1) ↔
      ∀ b ∈ host, isgraph b = true) ∧
    ((∃ b ∈ host, b = 32 ∨ b = 9 ∨ b < 32 ∨ b = 127 ∨ 128 ≤ b) →
      (run e).status = EXIT_FAILURE ∧ (run e).world.utmp_file = [] ∧
        (run e).world.wtmp_file = []) ∧
    ((∀ b ∈ host, isgraph b = true) →
      ∀ name device, fds_ok e → e.getppid ≠ 1 →
        (e.getpwuid e.getuid).bind passwd.pw_name = some name →
        e.ptsname STDIN_FILENO = some device → device_ok e device →
        ∃ w1, main e World.init =
          write_uwtmp_record e name (device.drop DEV_PREFIX_LEN) (some host) e.getppid 1
            w1) := by
  have hget : e.argv.get? 2 = some host := by simp [hargv]
  refine ⟨?_, ?_, ?_⟩
  · intro w
    constructor
    · rintro ⟨w1, hw⟩
      by_contra hb
      rw [validate_hostname_exit e host w hb] at hw
      cases hw
    · intro hb
      exact ⟨w, validate_hostname_next e host w hb⟩
  · rintro ⟨b, hb, hbad⟩
    apply run_reject
    rintro add name device ⟨_, _, _, _, _, _, hh, _⟩
    have hg := hh host hget b hb
    simp only [isgraph, Bool.and_eq_true, decide_eq_true_eq] at hg
    omega
  · intro hb name device hf h1 h2 h3 h4
    have hargs : args_ok e 1 := by
      refine ⟨by simp [hargv], Or.inl ⟨?_, by simp [hargv], rfl⟩⟩
      simp only [hargv, List.getD_cons_succ, List.getD_cons_zero]
      decide
    have h5 : host_ok (e.argv.get? 2) := by
      intro h hh b hbm
      rw [hget] at hh
      cases hh
      exact hb b hbm
    exact ⟨_, by
      rw [main_of_good_args e World.init 1 hf hargs,
        main_tail_to_writer e 1 _ name device h1 h2 h3 h4 h5, hget]⟩

/-- An instance of C3: the host "a b" is rejected, the host "office" reaches
the record writer. -/
theorem C3_witness :
    ((run env_bad_host).status = EXIT_FAILURE ∧ (run env_bad_host).world.utmp_file = [] ∧
      (run env_bad_host).world.wtmp_file = []) ∧
    ∃ w1, main scenario_A World.init =
      write_uwtmp_record scenario_A str_alice (dev_pts_4.drop DEV_PREFIX_LEN)
        (some str_office) scenario_A.getppid 1 w1 :=
  ⟨(C3_host_sanitizer env_bad_host str_utempter [97, 32, 98] rfl).2.1
      ⟨32, by decide, Or.inl rfl⟩,
    (C3_host_sanitizer scenario_A str_utempter str_office rfl).2.2 (by decide)
      str_alice dev_pts_4 (by decide) (by decide) rfl rfl (by decide)⟩

/-- C4: a device path that does not begin with "/dev/" is rejected by
`validate_device` at its first check, whatever the owner of the path, whether or
not it can be stat'ed, and whatever the flags of standard input; the invocation
that resolved it exits with the failure status and stores no record. -/
theorem C4_device_outside_dev (e : Env) (device : CStr) (h : ¬ DEV_PREFIX <+: device) :
    (∀ w, validate_device e device w =
      .exit EXIT_FAILURE (w.say e .invalid_device)) ∧
    (e.ptsname STDIN_FILENO = some device →
      (run e).status = EXIT_FAILURE ∧ (run e).world.utmp_file = [] ∧
        (run e).world.wtmp_file = []) := by
  constructor
  · intro w
    have h1 : strncmp device DEV_PREFIX DEV_PREFIX_LEN ≠ 0 :=
      fun h0 => h ((strncmp_dev_iff device).1 h0)
    unfold validate_device
    rw [if_pos h1]
  · intro hp
    exact reject_of_not_device_ok e device hp (fun hd => h hd.1)

/-- An instance of C4: "/tmp/x", owned by the caller and stat'able, with
standard input read-write, is rejected. -/
theorem C4_witness :
    (∀ w, validate_device env_tmp_device str_tmp_x w =
      .exit EXIT_FAILURE (w.say env_tmp_device .invalid_device)) ∧
    ((run env_tmp_device).status = EXIT_FAILURE ∧
      (run env_tmp_device).world.utmp_file = [] ∧
      (run env_tmp_device).world.wtmp_file = []) :=
  ⟨(C4_device_outside_dev env_tmp_device str_tmp_x (by decide)).1,
    (C4_device_outside_dev env_tmp_device str_tmp_x (by decide)).2 rfl⟩

/-- C5: when the parent process is init (`getppid()` is 1), the invocation
exits with the failure status and stores no record, whatever the arguments, the
caller identity, the device and the host are. -/
theorem C5_parent_init (e : Env) (h : e.getppid = 1) :
    (run e).status = EXIT_FAILURE ∧ (run e).world.utmp_file = [] ∧
      (run e).world.wtmp_file = [] := by
  apply run_reject
  rintro add name device ⟨_, _, h1, _⟩
  exact h1 h

/-- An instance of C5: scenario A with init as the parent. -/
theorem C5_witness :
    (run env_init_parent).status = EXIT_FAILURE ∧
      (run env_init_parent).world.utmp_file = [] ∧
      (run env_init_parent).world.wtmp_file = [] :=
  C5_parent_init env_init_parent rfl

/-- C6: when the status flags of standard input do not include `O_RDWR`, the
invocation exits with the failure status and stores no record, also when the
device path begins with "/dev/" and belongs to the caller. -/
theorem C6_stdin_not_rdwr (e : Env)
    (h : (e.fcntl_getfl STDIN_FILENO).toNat &&& e.O_RDWR ≠ e.O_RDWR) :
    (run e).status = EXIT_FAILURE ∧ (run e).world.utmp_file = [] ∧
      (run e).world.wtmp_file = [] := by
  apply run_reject
  rintro add name device ⟨_, _, _, _, _, ⟨_, _, h3, _⟩, _⟩
  exact h h3

/-- An instance of C6: scenario A (device under "/dev/", owned by the caller)
with standard input open read-only. -/
theorem C6_witness :
    (DEV_PREFIX <+: dev_pts_4 ∧
      (env_rdonly.stat dev_pts_4).map stat.st_uid = some env_rdonly.getuid) ∧
    ((run env_rdonly).status = EXIT_FAILURE ∧ (run env_rdonly).world.utmp_file = [] ∧
      (run env_rdonly).world.wtmp_file = []) :=
  ⟨by decide, C6_stdin_not_rdwr env_rdonly (by decide)⟩

theorem args_ok_of_tail_add (e : Env)
    (h : e.argv.tail = [ADD] ∨ ∃ host, e.argv.tail = [ADD, host]) : args_ok e 1 := by
  match hargv : e.argv with
  | [] => simp [hargv] at h
  | p :: rest =>
    simp only [hargv, List.tail_cons] at h
    unfold args_ok
    rw [hargv]
    rcases h with h | ⟨host, h⟩ <;> subst h
    · exact ⟨by simp, Or.inl ⟨by simp only [List.getD_cons_succ, List.getD_cons_zero]; decide,
        by simp, rfl⟩⟩
    · exact ⟨by simp, Or.inl ⟨by simp only [List.getD_cons_succ, List.getD_cons_zero]; decide,
        by simp, rfl⟩⟩

theorem args_ok_of_tail_del (e : Env) (h : e.argv.tail = [DEL]) :
    args_ok e 0 ∧ e.argv.get? 2 = none := by
  match hargv : e.argv with
  | [] => simp [hargv] at h
  | p :: rest =>
    simp only [hargv, List.tail_cons] at h
    subst h
    unfold args_ok
    rw [hargv]
    exact ⟨⟨by simp, Or.inr
      ⟨by simp only [List.getD_cons_succ, List.getD_cons_zero]; decide,
        by simp only [List.getD_cons_succ, List.getD_cons_zero]; decide,
        by simp, rfl⟩⟩, by simp⟩

/-- C7, as the code has it: the invocation exits with the failure status and
stores no record whenever the identity database has no record for the real
user ID or the `pw_name` pointer of the record is null; hence the user name
handed to the record writer by a successful invocation is the `pw_name` string
of the caller's record, which the one stored record is filled from.  (The
length of that string is not checked.) -/
theorem C7_identity_resolver (e : Env) :
    ((e.getpwuid e.getuid = none ∨
        ∃ pw, e.getpwuid e.getuid = some pw ∧ pw.pw_name = none) →
      (run e).status = EXIT_FAILURE ∧ (run e).world.utmp_file = [] ∧
        (run e).world.wtmp_file = []) ∧
    ((run e).status = EXIT_SUCCESS →
      ∃ pw name, e.getpwuid e.getuid = some pw ∧ pw.pw_name = some name ∧
        ∃ (add : Nat) (device : CStr), (run e).world.utmp_file =
          [fill_ut e name (device.drop DEV_PREFIX_LEN) (e.argv.get? 2) e.getppid add]) := by
  constructor
  · intro h
    apply run_reject
    rintro add name device ⟨_, _, _, h2, _⟩
    rcases h with h | ⟨pw, h, hn⟩
    · simp [h] at h2
    · simp [h, hn] at h2
  · intro hs
    obtain ⟨add, name, device, ha⟩ := accepts_of_success e hs
    have h2 := ha.2.2.2.1
    cases hpw : e.getpwuid e.getuid with
    | none => simp [hpw] at h2
    | some pw =>
      refine ⟨pw, name, rfl, ?_, add, device, (run_accept e add name device ha).2.1⟩
      simpa [hpw] using h2

/-- An instance of C7: with no record for the real user ID the invocation
fails and stores nothing. -/
theorem C7_witness :
    (run env_no_user).status = EXIT_FAILURE ∧ (run env_no_user).world.utmp_file = [] ∧
      (run env_no_user).world.wtmp_file = [] :=
  (C7_identity_resolver env_no_user).1 (Or.inl rfl)

/-- C7 fails as stated: the record of the real user ID has the empty string as
its user name, and the invocation exits with success, having handed the empty
user name to the record writer, whose record has an all-zero `ut_name`. -/
theorem C7_counterexample :
    env_empty_name.getpwuid env_empty_name.getuid = some ⟨some []⟩ ∧
    (run env_empty_name).status = EXIT_SUCCESS ∧
    (run env_empty_name).world.utmp_file =
      [fill_ut env_empty_name [] str_pts_4 (some str_office) 4242 1] ∧
    (run env_empty_name).world.utmp_file.map utmp.ut_name = [List.replicate 32 0] := by
  set_option maxRecDepth 100000 in decide

/-- C8, as the code has it: an `add` or `add <host>` invocation that passes
every check (valid descriptors, parent not init, a user name for the real user
ID, a device under "/dev/" owned by the caller with standard input read-write,
a graphic host, `pututline` succeeding) exits with success and stores exactly
one record in the session database.  Its type is `USER_PROCESS`, its pid is the
parent process ID, and its `ut_name`, `ut_line` and `ut_host` fields hold the
user name, the device path without "/dev/" and the host (empty when there is
none), each cut to the width of its field and followed by zeros; a value that
fits its field is held whole. -/
theorem C8_add_record (e : Env) (name device : CStr)
    (hfds : fds_ok e)
    (hargs : e.argv.tail = [ADD] ∨ ∃ host, e.argv.tail = [ADD, host])
    (hpar : e.getppid ≠ 1)
    (hpw : (e.getpwuid e.getuid).bind passwd.pw_name = some name)
    (hpty : e.ptsname STDIN_FILENO = some device)
    (hdev : device_ok e device)
    (hhost : host_ok (e.argv.get? 2))
    (hput : e.pututline
      (fill_ut e name (device.drop DEV_PREFIX_LEN) (e.argv.get? 2) e.getppid 1) = true) :
    (run e).status = EXIT_SUCCESS ∧
    ∃ r, (run e).world.utmp_file = [r] ∧
      r.ut_type = UtType.USER_PROCESS ∧
      r.ut_pid = e.getppid ∧
      holds r.ut_name (name.take e.UT_NAMESIZE) ∧
      holds r.ut_line ((device.drop DEV_PREFIX_LEN).take e.UT_LINESIZE) ∧
      holds r.ut_host (((e.argv.get? 2).getD []).take e.UT_HOSTSIZE) ∧
      (name.length ≤ e.UT_NAMESIZE → holds r.ut_name name) ∧
      ((device.drop DEV_PREFIX_LEN).length ≤ e.UT_LINESIZE →
        holds r.ut_line (device.drop DEV_PREFIX_LEN)) ∧
      (((e.argv.get? 2).getD []).length ≤ e.UT_HOSTSIZE →
        holds r.ut_host ((e.argv.get? 2).getD [])) := by
  have ha : accepts e 1 name device :=
    ⟨hfds, args_ok_of_tail_add e hargs, hpar, hpw, hpty, hdev, hhost, hput⟩
  obtain ⟨hs, hu, _⟩ := run_accept e 1 name device ha
  have hn := memcpy_zero_holds e.UT_NAMESIZE name
  have hl := memcpy_zero_holds e.UT_LINESIZE (device.drop DEV_PREFIX_LEN)
  have hh := host_getD_holds e name (device.drop DEV_PREFIX_LEN) (e.argv.get? 2)
    e.getppid 1
  refine ⟨hs, _, hu, ?_, ?_, ?_, ?_, ?_, ?_, ?_, ?_⟩
  · rw [fill_ut_type]; rfl
  · rw [fill_ut_pid]
  · rw [fill_ut_name]; exact hn
  · rw [fill_ut_line]; exact hl
  · exact hh
  · intro hle
    rw [fill_ut_name]
    rwa [List.take_of_length_le hle] at hn
  · intro hle
    rw [fill_ut_line]
    rwa [List.take_of_length_le hle] at hl
  · intro hle
    rwa [List.take_of_length_le hle] at hh

/-- Scenario A, an instance of C8: `add office` by UID 1000 on /dev/pts/4
exits with success and stores one record. -/
theorem C8_witness_scenario_A :
    (run scenario_A).status = EXIT_SUCCESS ∧
    ∃ r, (run scenario_A).world.utmp_file = [r] ∧
      r.ut_type = UtType.USER_PROCESS ∧
      r.ut_pid = 4242 ∧
      holds r.ut_name (str_alice.take 32) ∧
      holds r.ut_line (str_pts_4.take 32) ∧
      holds r.ut_host (str_office.take 256) ∧
      (str_alice.length ≤ 32 → holds r.ut_name str_alice) ∧
      (str_pts_4.length ≤ 32 → holds r.ut_line str_pts_4) ∧
      (str_office.length ≤ 256 → holds r.ut_host str_office) :=
  C8_add_record scenario_A str_alice dev_pts_4 (by decide) (Or.inr ⟨str_office, rfl⟩)
    (by decide) rfl rfl (by decide) (by decide) rfl

/-- C8 fails as stated: `add <host>` with a graphic host of 257 bytes passes
every check and exits with success, and the `ut_host` field of the record it
stores (256 bytes wide) does not hold the supplied host. -/
theorem C8_counterexample :
    accepts env_long_host 1 str_alice dev_pts_4 ∧
    env_long_host.argv.tail = [ADD, long_host] ∧
    (run env_long_host).status = EXIT_SUCCESS ∧
    ∃ r, (run env_long_host).world.utmp_file = [r] ∧ ¬ holds r.ut_host long_host := by
  have ha : accepts env_long_host 1 str_alice dev_pts_4 := by
    set_option maxRecDepth 100000 in decide
  obtain ⟨hs, hu, _⟩ := run_accept env_long_host 1 str_alice dev_pts_4 ha
  refine ⟨ha, rfl, hs, _, hu, ?_⟩
  intro h
  have hlen := holds_length_le _ _ h
  have hget : env_long_host.argv.get? 2 = some long_host := rfl
  rw [hget, fill_ut_host_some, memcpy_zero_length] at hlen
  have h1 : long_host.length = 257 := List.length_replicate 257 97
  have h2 : env_long_host.UT_HOSTSIZE = 256 := rfl
  rw [h1, h2] at hlen
  omega

/-- C9, as the code has it: a `del` invocation that passes every check exits
with success and stores exactly one record in the session database.  Its type
is `DEAD_PROCESS`, its `ut_line` field holds the device path without "/dev/",
cut to the width of the field and followed by zeros (the whole of it when it
fits), and its `ut_host` field is all zeros: the host handed to the record
writer is `NULL`.  No successful invocation has more than one argument after
the verb, and one with an argument after the verb was invoked as `add`. -/
theorem C9_del_record (e : Env) (name device : CStr)
    (hfds : fds_ok e)
    (hargs : e.argv.tail = [DEL])
    (hpar : e.getppid ≠ 1)
    (hpw : (e.getpwuid e.getuid).bind passwd.pw_name = some name)
    (hpty : e.ptsname STDIN_FILENO = some device)
    (hdev : device_ok e device)
    (hput : e.pututline
      (fill_ut e name (device.drop DEV_PREFIX_LEN) none e.getppid 0) = true) :
    (run e).status = EXIT_SUCCESS ∧
    (∃ r, (run e).world.utmp_file = [r] ∧
      r = fill_ut e name (device.drop DEV_PREFIX_LEN) none e.getppid 0 ∧
      r.ut_type = UtType.DEAD_PROCESS ∧
      holds r.ut_line ((device.drop DEV_PREFIX_LEN).take e.UT_LINESIZE) ∧
      ((device.drop DEV_PREFIX_LEN).length ≤ e.UT_LINESIZE →
        holds r.ut_line (device.drop DEV_PREFIX_LEN)) ∧
      r.ut_host.length = e.UT_HOSTSIZE ∧
      ∀ b ∈ r.ut_host, b = 0) ∧
    (∀ e2 : Env, (run e2).status = EXIT_SUCCESS →
      e2.argv.length = 2 ∨
        (e2.argv.length = 3 ∧ strcmp (e2.argv.getD 1 []) ADD = 0)) := by
  obtain ⟨hargs0, hget⟩ := args_ok_of_tail_del e hargs
  have hhost : host_ok (e.argv.get? 2) := by
    rw [hget]
    intro h hh
    cases hh
  have ha : accepts e 0 name device :=
    ⟨hfds, hargs0, hpar, hpw, hpty, hdev, hhost, by rw [hget]; exact hput⟩
  obtain ⟨hs, hu, _⟩ := run_accept e 0 name device ha
  rw [hget] at hu
  have hl := memcpy_zero_holds e.UT_LINESIZE (device.drop DEV_PREFIX_LEN)
  refine ⟨hs, ⟨_, hu, rfl, ?_, ?_, ?_, ?_, ?_⟩, ?_⟩
  · rw [fill_ut_type]; rfl
  · rw [fill_ut_line]; exact hl
  · intro hle
    rw [fill_ut_line]
    rwa [List.take_of_length_le hle] at hl
  · rw [fill_ut_host_none]; simp
  · intro b hb
    rw [fill_ut_host_none] at hb
    exact (List.mem_replicate.1 hb).2
  · intro e2 hs2
    obtain ⟨add, name2, device2, _, ⟨hlen, hv⟩, _⟩ := accepts_of_success e2 hs2
    rcases hv with ⟨hadd, hle, _⟩ | ⟨_, _, heq, _⟩
    · by_cases h2 : e2.argv.length = 2
      · exact Or.inl h2
      · exact Or.inr ⟨by omega, hadd⟩
    · exact Or.inl heq

/-- Scenario B, an instance of C9: `del` by UID 1000 on /dev/pts/4 exits with
success and stores one `DEAD_PROCESS` record for pts/4 with an empty host. -/
theorem C9_witness_scenario_B :
    (run scenario_B).status = EXIT_SUCCESS ∧
    (∃ r, (run scenario_B).world.utmp_file = [r] ∧
      r = fill_ut scenario_B str_alice str_pts_4 none 4242 0 ∧
      r.ut_type = UtType.DEAD_PROCESS ∧
      holds r.ut_line (str_pts_4.take 32) ∧
      (str_pts_4.length ≤ 32 → holds r.ut_line str_pts_4) ∧
      r.ut_host.length = 256 ∧
      ∀ b ∈ r.ut_host, b = 0) :=
  ⟨(C9_del_record scenario_B str_alice dev_pts_4 (by decide) rfl (by decide) rfl rfl
      (by decide) rfl).1,
    (C9_del_record scenario_B str_alice dev_pts_4 (by decide) rfl (by decide) rfl rfl
      (by decide) rfl).2.1⟩

/-- C9 fails as stated: `del` on a device whose name after "/dev/" has 33 bytes
passes every check and exits with success, and the `ut_line` field of the
record it stores (32 bytes wide) does not hold that name. -/
theorem C9_counterexample :
    accepts env_long_tty 0 str_alice long_tty ∧
    env_long_tty.argv.tail = [DEL] ∧
    (run env_long_tty).status = EXIT_SUCCESS ∧
    ∃ r, (run env_long_tty).world.utmp_file = [r] ∧
      ¬ holds r.ut_line (long_tty.drop DEV_PREFIX_LEN) := by
  have ha : accepts env_long_tty 0 str_alice long_tty := by
    set_option maxRecDepth 100000 in decide
  obtain ⟨hs, hu, _⟩ := run_accept env_long_tty 0 str_alice long_tty ha
  refine ⟨ha, rfl, hs, _, hu, ?_⟩
  intro h
  have hlen := holds_length_le _ _ h
  rw [fill_ut_line, memcpy_zero_length] at hlen
  have h1 : (long_tty.drop DEV_PREFIX_LEN).length = 33 := by decide
  have h2 : env_long_tty.UT_LINESIZE = 32 := rfl
  rw [h1, h2] at hlen
  omega

/-- C10, as the code has it: the exit status of every invocation is 0 or 1; an
invocation with a non-zero status has stored no record, in the session database
or in the historical log; an invocation with status 0 has stored exactly one
record in the session database, an add (`USER_PROCESS`) or a remove
(`DEAD_PROCESS`), and the historical log has that record, and nothing else,
exactly when the append by `updwtmp` went through: when it did not, the add or
remove is in the session database alone. -/
theorem C10_all_or_nothing (e : Env) :
    ((run e).status = 0 ∨ (run e).status = 1) ∧
    ((run e).status ≠ 0 →
      (run e).world.utmp_file = [] ∧ (run e).world.wtmp_file = []) ∧
    ((run e).status = 0 →
      ∃ r, (run e).world.utmp_file = [r] ∧
        (r.ut_type = UtType.USER_PROCESS ∨ r.ut_type = UtType.DEAD_PROCESS) ∧
        (run e).world.wtmp_file = if e.updwtmp r then [r] else []) := by
  rcases run_cases e with ⟨add, name, device, ha⟩ | hr
  · obtain ⟨hs, hu, hw, _⟩ := run_accept e add name device ha
    have hs0 : (run e).status = 0 := hs
    refine ⟨Or.inl hs0, fun hne => absurd hs0 hne, fun _ => ⟨_, hu, ?_, hw⟩⟩
    rw [fill_ut_type]
    by_cases h0 : add ≠ 0
    · left; rw [if_pos h0]
    · right; rw [if_neg h0]
  · obtain ⟨hs, hu, hw⟩ := run_reject e hr
    have hs1 : (run e).status = 1 := hs
    refine ⟨Or.inr hs1, fun _ => ⟨hu, hw⟩, fun h0 => ?_⟩
    rw [hs1] at h0
    exact absurd h0 (by decide)

/-- An instance of C10: scenario C exits with a non-zero status and has stored
nothing; scenario A exits with status 0 and has stored one record, which is in
the historical log as well, the append having gone through. -/
theorem C10_witness :
    ((run scenario_C).world.utmp_file = [] ∧ (run scenario_C).world.wtmp_file = []) ∧
    ∃ r, (run scenario_A).world.utmp_file = [r] ∧
      (r.ut_type = UtType.USER_PROCESS ∨ r.ut_type = UtType.DEAD_PROCESS) ∧
      (run scenario_A).world.wtmp_file = if scenario_A.updwtmp r then [r] else [] :=
  ⟨(C10_all_or_nothing scenario_C).2.1 (by decide),
    (C10_all_or_nothing scenario_A).2.2 (by decide)⟩

/-- C10 fails as stated: a `del` whose append to the historical log fails exits
with status 0 with the remove applied in part, the `DEAD_PROCESS` record stored
in the session database and no entry in the historical log. -/
theorem C10_counterexample :
    env_del_wtmp_fails.updwtmp
      (fill_ut env_del_wtmp_fails str_alice str_pts_4 none 4242 0) = false ∧
    (run env_del_wtmp_fails).status = 0 ∧
    (run env_del_wtmp_fails).world.utmp_file =
      [fill_ut env_del_wtmp_fails str_alice str_pts_4 none 4242 0] ∧
    (run env_del_wtmp_fails).world.wtmp_file = [] := by
  refine ⟨rfl, ?_, ?_, ?_⟩
  · set_option maxRecDepth 100000 in decide
  · set_option maxRecDepth 100000 in decide
  · set_option maxRecDepth 100000 in decide

/-- C11: the checks are complete.  When the three standard descriptors are
valid, the arguments are exactly `add`, `add <host>` or `del`, the parent is not
init, the real user ID has a record with a user name (non-empty or not),
standard input resolves to a path beginning with "/dev/", `fcntl` yields flags
that include
`O_RDWR`, the device can be stat'ed and belongs to the real user ID, the host
(if any) has graphic characters only, and `pututline` succeeds on the record,
the invocation exits with status 0, having stored one record: nothing else can
make it fail. -/
theorem C11_checks_complete (e : Env) (name device : CStr)
    (hfds : fds_ok e)
    (hargs : e.argv.tail = [ADD] ∨ (∃ host, e.argv.tail = [ADD, host]) ∨
      e.argv.tail = [DEL])
    (hpar : e.getppid ≠ 1)
    (hpw : ∃ pw, e.getpwuid e.getuid = some pw ∧ pw.pw_name = some name)
    (hpty : e.ptsname STDIN_FILENO = some device)
    (hpre : DEV_PREFIX <+: device)
    (hfl : 0 ≤ e.fcntl_getfl STDIN_FILENO)
    (hrw : (e.fcntl_getfl STDIN_FILENO).toNat &&& e.O_RDWR = e.O_RDWR)
    (hst : ∃ stb, e.stat device = some stb ∧ stb.st_uid = e.getuid)
    (hhost : ∀ host, e.argv.get? 2 = some host → ∀ b ∈ host, isgraph b = true)
    (hput : e.pututline
      (fill_ut e name (device.drop DEV_PREFIX_LEN) (e.argv.get? 2) e.getppid
        (if e.argv.getD 1 [] = ADD then 1 else 0)) = true) :
    (run e).status = 0 ∧
    (run e).world.utmp_file =
      [fill_ut e name (device.drop DEV_PREFIX_LEN) (e.argv.get? 2) e.getppid
        (if e.argv.getD 1 [] = ADD then 1 else 0)] := by
  have hargs2 : args_ok e (if e.argv.getD 1 [] = ADD then 1 else 0) := by
    rcases hargs with h | h | h
    · have h1 : e.argv.getD 1 [] = ADD := by
        match hargv : e.argv with
        | [] => simp [hargv] at h
        | p :: rest =>
          simp only [hargv, List.tail_cons] at h
          subst h
          rfl
      rw [if_pos h1]
      exact args_ok_of_tail_add e (Or.inl h)
    · have h1 : e.argv.getD 1 [] = ADD := by
        obtain ⟨host, h⟩ := h
        match hargv : e.argv with
        | [] => simp [hargv] at h
        | p :: rest =>
          simp only [hargv, List.tail_cons] at h
          subst h
          rfl
      rw [if_pos h1]
      exact args_ok_of_tail_add e (Or.inr h)
    · have h1 : e.argv.getD 1 [] ≠ ADD := by
        match hargv : e.argv with
        | [] => simp [hargv] at h
        | p :: rest =>
          simp only [hargv, List.tail_cons] at h
          subst h
          show DEL ≠ ADD
          decide
      rw [if_neg h1]
      exact (args_ok_of_tail_del e h).1
  obtain ⟨pw, hpw1, hpw2⟩ := hpw
  obtain ⟨stb, hst1, hst2⟩ := hst
  have ha : accepts e (if e.argv.getD 1 [] = ADD then 1 else 0) name device :=
    ⟨hfds, hargs2, hpar, by simp [hpw1, hpw2], hpty,
      ⟨hpre, hfl, hrw, by simp [hst1, hst2]⟩, hhost, hput⟩
  obtain ⟨hs, hu, _⟩ := run_accept e _ name device ha
  exact ⟨hs, hu⟩

/-- Scenario A, an instance of C11. -/
theorem C11_witness_scenario_A :
    (run scenario_A).status = 0 ∧
    (run scenario_A).world.utmp_file =
      [fill_ut scenario_A str_alice (dev_pts_4.drop DEV_PREFIX_LEN)
        (scenario_A.argv.get? 2) scenario_A.getppid
        (if scenario_A.argv.getD 1 [] = ADD then 1 else 0)] :=
  C11_checks_complete scenario_A str_alice dev_pts_4 (by decide)
    (Or.inr (Or.inl ⟨str_office, rfl⟩)) (by decide) ⟨⟨some str_alice⟩, rfl, rfl⟩
    rfl (by decide) (by decide) (by decide) ⟨⟨1000⟩, rfl, rfl⟩
    (by decide) rfl

theorem truncated_into_memcpy (W : Nat) (s : CStr) :
    truncated_into (memcpy (List.replicate W 0) s (MIN W (strlen s))) W s := by
  refine ⟨memcpy_zero_length W s, ?_, ?_, ?_⟩
  · rw [memcpy_zero_eq]
    by_cases h : W ≤ s.length
    · rw [Nat.min_eq_left h]
      simp [Nat.sub_eq_zero_of_le h]
    · have h1 : s.length ≤ W := by omega
      rw [Nat.min_eq_right h1, List.take_of_length_le h1]
      simp
  · rw [memcpy_zero_eq]
    intro b hb
    by_cases h : W ≤ s.length
    · rw [Nat.min_eq_left h, Nat.sub_eq_zero_of_le h] at hb
      have hlen : (List.take W s ++ List.replicate 0 0).length ≤ W := by simp
      rw [List.drop_eq_nil_of_le hlen] at hb
      cases hb
    · have h1 : s.length ≤ W := by omega
      rw [Nat.min_eq_right h1, List.take_of_length_le h1] at hb
      simp only [List.drop_left, List.mem_replicate] at hb
      exact hb.2
  · intro h1
    rw [memcpy_zero_eq, List.take_of_length_le h1]
    simp

/-- C12: for a user name, a terminal name and a host of any length,
`write_uwtmp_record` fails only when `pututline` does (it returns success iff
`pututline` accepts the record), and each of `ut_name`, `ut_line` and `ut_host`
has the width of its field, begins with the first min(width, length) bytes of
its input, is zero after them, and has an input no longer than the field
unchanged; with no host, `ut_host` is all zeros. -/
theorem C12_field_truncation (e : Env) (user term : CStr) (host : Option CStr)
    (pid add : Nat) (w : World) :
    ((∃ w1, write_uwtmp_record e user term host pid add w = .next EXIT_SUCCESS w1) ↔
      e.pututline (fill_ut e user term host pid add) = true) ∧
    truncated_into (fill_ut e user term host pid add).ut_name e.UT_NAMESIZE user ∧
    truncated_into (fill_ut e user term host pid add).ut_line e.UT_LINESIZE term ∧
    (∀ h, host = some h →
      truncated_into (fill_ut e user term host pid add).ut_host e.UT_HOSTSIZE h) ∧
    (host = none →
      (fill_ut e user term host pid add).ut_host = List.replicate e.UT_HOSTSIZE 0) := by
  refine ⟨?_, ?_, ?_, ?_, ?_⟩
  · constructor
    · rintro ⟨w1, hw⟩
      cases hp : e.pututline (fill_ut e user term host pid add) with
      | true => rfl
      | false =>
        obtain ⟨w2, hw2, _⟩ := write_uwtmp_record_exit e user term host pid add w hp
        rw [hw2] at hw
        cases hw
    · intro hp
      obtain ⟨w1, hw, _⟩ := write_uwtmp_record_next e user term host pid add w hp
      exact ⟨w1, hw⟩
  · rw [fill_ut_name]; exact truncated_into_memcpy _ _
  · rw [fill_ut_line]; exact truncated_into_memcpy _ _
  · intro h hh
    subst hh
    rw [fill_ut_host_some]; exact truncated_into_memcpy _ _
  · intro hh
    subst hh
    rfl

/-- An instance of C12: the 257-byte host does not make the writer fail, and
the first 256 bytes of it are in `ut_host`. -/
theorem C12_witness :
    (∃ w1, write_uwtmp_record scenario_A str_alice str_pts_4 (some long_host) 4242 1
      World.init = .next EXIT_SUCCESS w1) ∧
    truncated_into
      (fill_ut scenario_A str_alice str_pts_4 (some long_host) 4242 1).ut_host 256
      long_host :=
  ⟨(C12_field_truncation scenario_A str_alice str_pts_4 (some long_host) 4242 1
      World.init).1.2 rfl,
    (C12_field_truncation scenario_A str_alice str_pts_4 (some long_host) 4242 1
      World.init).2.2.2.1 long_host rfl⟩

/-- C13: when one of the descriptors 0, 1, 2 is not valid (its `fstat` fails),
the invocation exits with the failure status having done nothing else: it has
stored no record, written nothing to standard error (with or without
`UTEMPTER_DEBUG`), and made no call other than `fstat`.  This holds for every
argument vector. -/
theorem C13_descriptor_check (e : Env) (h : ∃ fd, fd ≤ 2 ∧ e.fstat fd < 0) :
    (run e).status = EXIT_FAILURE ∧ (run e).world.utmp_file = [] ∧
      (run e).world.wtmp_file = [] ∧ (run e).world.stderr = [] ∧
      ∀ c ∈ (run e).world.calls, ∃ fd, c = Call.fstat fd := by
  have hf : ¬ fds_ok e := by
    rintro ⟨h0, h1, h2⟩
    obtain ⟨fd, hfd, hlt⟩ := h
    have : fd = 0 ∨ fd = 1 ∨ fd = 2 := by omega
    rcases this with rfl | rfl | rfl
    · exact h0 hlt
    · exact h1 hlt
    · exact h2 hlt
  obtain ⟨w1, hw, hu, hwt, hs, hc⟩ := main_of_bad_fds e World.init hf
  unfold run
  rw [hw]
  refine ⟨rfl, by simpa [World.init] using hu, by simpa [World.init] using hwt,
    by simpa [World.init] using hs, ?_⟩
  intro c hcm
  rcases hc c hcm with hc | hc
  · simp [World.init] at hc
  · exact hc

/-- An instance of C13: descriptor 2 closed, a build with `UTEMPTER_DEBUG`, and
the arguments `add host1 host2`. -/
theorem C13_witness :
    (run env_closed_fd).status = EXIT_FAILURE ∧ (run env_closed_fd).world.utmp_file = [] ∧
      (run env_closed_fd).world.wtmp_file = [] ∧ (run env_closed_fd).world.stderr = [] ∧
      ∀ c ∈ (run env_closed_fd).world.calls, ∃ fd, c = Call.fstat fd :=
  C13_descriptor_check env_closed_fd ⟨2, by decide, by decide⟩

/-- C14, as the code has it: when `pututline`, the write to the session
database, fails, `write_uwtmp_record` exits with the failure status, nothing
stored or appended; when it returns, it returns success, the record is in the
session database, and the record is in the historical log exactly when the
append by `updwtmp` went through, which the function does not find out.  So an
invocation whose `pututline` call fails exits with the failure status, and one
that exits with success has stored its record in the session database. -/
theorem C14_writer_failure (e : Env) (user term : CStr) (host : Option CStr)
    (pid add : Nat) (w : World) :
    (e.pututline (fill_ut e user term host pid add) = false →
      ∃ w1, write_uwtmp_record e user term host pid add w = .exit EXIT_FAILURE w1 ∧
        w1.utmp_file = w.utmp_file ∧ w1.wtmp_file = w.wtmp_file) ∧
    (∀ s w1, write_uwtmp_record e user term host pid add w = .next s w1 →
      s = EXIT_SUCCESS ∧ e.pututline (fill_ut e user term host pid add) = true ∧
      w1.utmp_file = w.utmp_file ++ [fill_ut e user term host pid add] ∧
      w1.wtmp_file = w.wtmp_file ++
        (if e.updwtmp (fill_ut e user term host pid add) then
          [fill_ut e user term host pid add] else [])) ∧
    ((∀ r, Call.pututline r ∈ (run e).world.calls → e.pututline r = false) →
      (run e).status = EXIT_FAILURE ∧ (run e).world.utmp_file = [] ∧
        (run e).world.wtmp_file = []) ∧
    ((run e).status = EXIT_SUCCESS →
      ∃ r, (run e).world.utmp_file = [r] ∧ e.pututline r = true ∧
        (run e).world.wtmp_file = if e.updwtmp r then [r] else []) := by
  refine ⟨?_, ?_, ?_, ?_⟩
  · exact write_uwtmp_record_exit e user term host pid add w
  · intro s w1 hw
    cases hp : e.pututline (fill_ut e user term host pid add) with
    | false =>
      obtain ⟨w2, hw2, _⟩ := write_uwtmp_record_exit e user term host pid add w hp
      rw [hw2] at hw
      cases hw
    | true =>
      obtain ⟨w2, hw2, hu, hwt, _⟩ := write_uwtmp_record_next e user term host pid add w hp
      rw [hw2] at hw
      cases hw
      exact ⟨rfl, rfl, hu, hwt⟩
  · intro hall
    apply run_reject
    intro add2 name device ha
    obtain ⟨_, _, _, hc, _⟩ := run_accept e add2 name device ha
    have hput := ha.2.2.2.2.2.2.2
    have hmem : Call.pututline
        (fill_ut e name (device.drop DEV_PREFIX_LEN) (e.argv.get? 2) e.getppid add2) ∈
        (run e).world.calls := by
      rw [hc]; simp
    rw [hall _ hmem] at hput
    cases hput
  · intro hs
    obtain ⟨add2, name, device, ha⟩ := accepts_of_success e hs
    obtain ⟨_, hu, hwt, _⟩ := run_accept e add2 name device ha
    exact ⟨_, hu, ha.2.2.2.2.2.2.2, hwt⟩

/-- An instance of C14: with `pututline` failing, scenario A exits with the
failure status and nothing is stored or appended. -/
theorem C14_witness :
    (∃ w1, write_uwtmp_record env_put_fails str_alice str_pts_4 (some str_office) 4242 1
        World.init = .exit EXIT_FAILURE w1 ∧
      w1.utmp_file = World.init.utmp_file ∧ w1.wtmp_file = World.init.wtmp_file) ∧
    ((run env_put_fails).status = EXIT_FAILURE ∧ (run env_put_fails).world.utmp_file = [] ∧
      (run env_put_fails).world.wtmp_file = []) :=
  ⟨(C14_writer_failure env_put_fails str_alice str_pts_4 (some str_office) 4242 1
      World.init).1 rfl,
    (C14_writer_failure env_put_fails str_alice str_pts_4 (some str_office) 4242 1
      World.init).2.2.1 (fun _ _ => rfl)⟩

/-- C14 fails as stated: the append to the historical log fails, and the
record writer returns success all the same, the invocation exiting with status
0 with no entry in the historical log. -/
theorem C14_counterexample :
    env_wtmp_fails.updwtmp
      (fill_ut env_wtmp_fails str_alice str_pts_4 (some str_office) 4242 1) = false ∧
    (∃ w1, write_uwtmp_record env_wtmp_fails str_alice str_pts_4 (some str_office) 4242 1
        World.init = .next EXIT_SUCCESS w1 ∧ w1.wtmp_file = []) ∧
    (run env_wtmp_fails).status = EXIT_SUCCESS ∧
    (run env_wtmp_fails).world.utmp_file =
      [fill_ut env_wtmp_fails str_alice str_pts_4 (some str_office) 4242 1] ∧
    (run env_wtmp_fails).world.wtmp_file = [] := by
  refine ⟨rfl, ?_, ?_, ?_, ?_⟩
  · obtain ⟨w1, hw, _, hwt, _⟩ := write_uwtmp_record_next env_wtmp_fails str_alice
      str_pts_4 (some str_office) 4242 1 World.init rfl
    exact ⟨w1, hw, hwt⟩
  · set_option maxRecDepth 100000 in decide
  · set_option maxRecDepth 100000 in decide
  · set_option maxRecDepth 100000 in decide

/-- C15: for a terminal name of length n (a `size_t` value), `ut_id` has the
width W of the field and is the last min(n, W) bytes of the whole name (the
whole name when n ≤ W) followed by zeros.  The offset computed at lines 157 and
158 in `size_t` arithmetic is the true difference n - W when W < n and 0
otherwise, so the subtraction `len - sizeof(ut.ut_id)` never wraps around; the
offset is within the name, and the number of bytes copied, `len - offset` in
`size_t` arithmetic, is min(n, W), at most W, whatever the width of `ut_line`
is. -/
theorem C15_ut_id (e : Env) (user term : CStr) (host : Option CStr) (pid add : Nat)
    (hlen : strlen term < 2 ^ e.SIZE_BITS) :
    (fill_ut e user term host pid add).ut_id =
      term.drop (term.length - min term.length e.UT_IDSIZE) ++
        List.replicate (e.UT_IDSIZE - min term.length e.UT_IDSIZE) 0 ∧
    (fill_ut e user term host pid add).ut_id.length = e.UT_IDSIZE ∧
    (term.length ≤ e.UT_IDSIZE →
      (fill_ut e user term host pid add).ut_id =
        term ++ List.replicate (e.UT_IDSIZE - term.length) 0) ∧
    ((id_offset e (strlen term) : Int) =
      if strlen term ≤ e.UT_IDSIZE then 0 else (strlen term : Int) - (e.UT_IDSIZE : Int)) ∧
    id_offset e (strlen term) ≤ strlen term ∧
    size_sub e.SIZE_BITS (strlen term) (id_offset e (strlen term)) =
      min term.length e.UT_IDSIZE ∧
    size_sub e.SIZE_BITS (strlen term) (id_offset e (strlen term)) ≤ e.UT_IDSIZE := by
  have hoff := id_offset_eq e (strlen term) hlen
  have hle : id_offset e (strlen term) ≤ strlen term := by rw [hoff]; omega
  have hcnt : size_sub e.SIZE_BITS (strlen term) (id_offset e (strlen term)) =
      min term.length e.UT_IDSIZE := by
    rw [size_sub_of_le _ _ _ hle hlen, hoff]
    unfold strlen
    omega
  have key : (fill_ut e user term host pid add).ut_id =
      term.drop (term.length - min term.length e.UT_IDSIZE) ++
        List.replicate (e.UT_IDSIZE - min term.length e.UT_IDSIZE) 0 := by
    rw [fill_ut_id, hcnt, hoff]
    unfold memcpy strlen
    rw [List.take_of_length_le (by simp; omega)]
    simp
  refine ⟨key, ?_, ?_, ?_, hle, hcnt, ?_⟩
  · rw [key]
    simp
    omega
  · intro h
    rw [key, Nat.min_eq_left h]
    simp
  · rw [hoff]
    unfold strlen
    by_cases h : term.length ≤ e.UT_IDSIZE
    · rw [if_pos h, Nat.min_eq_left h]
      simp
    · rw [if_neg h, Nat.min_eq_right (by omega)]
      omega
  · rw [hcnt]
    omega

/-- An instance of C15: the 33-byte terminal name of `long_tty`, longer than
`ut_line`, and the 1-byte name "4". -/
theorem C15_witness :
    (fill_ut scenario_A str_alice (long_tty.drop DEV_PREFIX_LEN) none 4242 0).ut_id =
      [116, 116, 116, 116] ∧
    id_offset scenario_A (strlen (long_tty.drop DEV_PREFIX_LEN)) = 29 ∧
    (fill_ut scenario_A str_alice [52] none 4242 0).ut_id = [52] ++ List.replicate 3 0 :=
  ⟨by
      have h := (C15_ut_id scenario_A str_alice (long_tty.drop DEV_PREFIX_LEN) none 4242
        0 (by decide)).1
      rw [h]
      decide,
    by
      have h := (C15_ut_id scenario_A str_alice (long_tty.drop DEV_PREFIX_LEN) none 4242
        0 (by decide)).2.2.2.1
      have h2 : ¬ strlen (long_tty.drop DEV_PREFIX_LEN) ≤ scenario_A.UT_IDSIZE := by decide
      rw [if_neg h2] at h
      have h3 : strlen (long_tty.drop DEV_PREFIX_LEN) = 33 := by decide
      have h4 : scenario_A.UT_IDSIZE = 4 := rfl
      rw [h3, h4] at h
      rw [h3]
      omega,
    (C15_ut_id scenario_A str_alice [52] none 4242 0 (by decide)).2.2.1 (by decide)⟩

theorem fill_ut_empty_host (e : Env) (user term : CStr) (pid add : Nat) :
    fill_ut e user term (some []) pid add = fill_ut e user term none pid add := by
  unfold fill_ut
  simp [memcpy, MIN, strlen]

theorem main_tail_empty_host (e : Env) (prog : CStr) (w : World) :
    main_tail { e with argv := [prog, ADD, []] } 1 w =
      main_tail { e with argv := [prog, ADD] } 1 w := by
  unfold main_tail
  simp only [List.get?, validate_hostname]
  by_cases h1 : e.getppid = 1
  · simp only [h1, if_true]
    rfl
  simp only [h1, if_false]
  cases h2 : (e.getpwuid e.getuid).bind passwd.pw_name with
  | none => rfl
  | some name =>
    cases h3 : e.ptsname STDIN_FILENO with
    | none => rfl
    | some device =>
      simp only []
      have hv : ∀ w0, validate_device { e with argv := [prog, ADD, []] } device w0 =
          validate_device { e with argv := [prog, ADD] } device w0 := fun _ => rfl
      rw [hv]
      cases validate_device { e with argv := [prog, ADD] } device
        ((((w.call .getppid).call .getuid).call (.getpwuid e.getuid)).call
          (.ptsname STDIN_FILENO)) with
      | exit s w1 => rfl
      | next u w1 =>
        simp only []
        unfold write_uwtmp_record
        have hf := fill_ut_empty_host e name (device.drop DEV_PREFIX_LEN) e.getppid 1
        have hf1 : fill_ut { e with argv := [prog, ADD, []] } name
            (device.drop DEV_PREFIX_LEN) (some []) e.getppid 1 =
            fill_ut e name (device.drop DEV_PREFIX_LEN) (some []) e.getppid 1 := rfl
        have hf2 : fill_ut { e with argv := [prog, ADD] } name
            (device.drop DEV_PREFIX_LEN) none e.getppid 1 =
            fill_ut e name (device.drop DEV_PREFIX_LEN) none e.getppid 1 := rfl
        simp only [hf1, hf2, hf]
        rfl

/-- C16: `add` with the empty string as host behaves exactly as `add` with no
host: `validate_hostname` lets the empty host through, and the two invocations
end with the same exit status and the same effects (the same calls, the same
record stored and appended, the same diagnostics); the `ut_host` field of the
record is all zeros. -/
theorem C16_empty_host (e : Env) (prog : CStr) :
    (∀ w, validate_hostname e [] w = .next () w) ∧
    run { e with argv := [prog, ADD, []] } = run { e with argv := [prog, ADD] } ∧
    (∀ r ∈ (run { e with argv := [prog, ADD, []] }).world.utmp_file,
      r.ut_host = List.replicate e.UT_HOSTSIZE 0) := by
  have hmain : ∀ w, main { e with argv := [prog, ADD, []] } w =
      main { e with argv := [prog, ADD] } w := by
    intro w
    unfold main
    have hl : ∀ n i w0, fstat_loop { e with argv := [prog, ADD, []] } n i w0 =
        fstat_loop { e with argv := [prog, ADD] } n i w0 := by
      intro n
      induction n with
      | zero => intro i w0; rfl
      | succ n ih =>
        intro i w0
        simp only [fstat_loop]
        rw [ih]
    rw [hl]
    cases fstat_loop { e with argv := [prog, ADD] } 3 0 w with
    | exit s w1 => rfl
    | next u w1 =>
      have hs : strcmp ADD ADD = 0 := by decide
      simp only [List.length_cons, List.length_nil, List.getD_cons_succ, List.getD_cons_zero,
        hs, if_true]
      simp only [main_tail_empty_host e prog w1]
      rfl
  have hrun : run { e with argv := [prog, ADD, []] } = run { e with argv := [prog, ADD] } := by
    unfold run
    rw [hmain]
  refine ⟨fun w => rfl, hrun, ?_⟩
  intro r hr
  rw [hrun] at hr
  rcases run_cases { e with argv := [prog, ADD] } with ⟨add, name, device, ha⟩ | hrej
  · obtain ⟨_, hu, _⟩ := run_accept _ add name device ha
    rw [hu] at hr
    rw [List.mem_singleton] at hr
    subst hr
    rfl
  · rw [(run_reject _ hrej).2.1] at hr
    cases hr

/-- An instance of C16: scenario A invoked as `add ""` and as `add`. -/
theorem C16_witness :
    run { scenario_A with argv := [str_utempter, ADD, []] } =
      run { scenario_A with argv := [str_utempter, ADD] } ∧
    (∀ r ∈ (run { scenario_A with argv := [str_utempter, ADD, []] }).world.utmp_file,
      r.ut_host = List.replicate 256 0) :=
  (C16_empty_host scenario_A str_utempter).2

end Utempter
